import Mathlib

/- Verification development for the ytextract Obsidian plugin.

   The TypeScript sources (src/services/youtube.ts, src/services/extraction.ts
   containing ExtractionService / LLMService / TemplateService) are shallowly
   embedded below: JS strings become `List Char` / `String`, JS regular
   expression search is spelled out as character-list scanning with the same
   leftmost-match and greedy/backtracking behaviour, and fallible operations
   return `Option` / `Except`. -/

/-! ## Generic helpers: JS-style option fallback, prefix matching, scanning -/

/-- Short-circuiting fallback, used to model ordered alternatives. -/
def oElse {α : Type} : Option α → (Unit → Option α) → Option α
  | some v, _ => some v
  | none, f => f ()

@[simp] theorem oElse_some {α : Type} (v : α) (f : Unit → Option α) :
    oElse (some v) f = some v := rfl

@[simp] theorem oElse_none {α : Type} (f : Unit → Option α) :
    oElse none f = f () := rfl

/-- Match a literal pattern `p` at the head of `l`; on success return the rest. -/
def matchPre : List Char → List Char → Option (List Char)
  | [], l => some l
  | _ :: _, [] => none
  | p :: ps, c :: cs => if p = c then matchPre ps cs else none

theorem matchPre_eq_some : ∀ (p l r : List Char), matchPre p l = some r ↔ l = p ++ r
  | [], l, r => by simp [matchPre]
  | _ :: _, [], r => by simp [matchPre]
  | p :: ps, c :: cs, r => by
    by_cases h : p = c
    · subst h
      simp [matchPre, matchPre_eq_some ps cs r]
    · simp [matchPre, h, Ne.symm h]

theorem matchPre_self_append (p r : List Char) : matchPre p (p ++ r) = some r :=
  (matchPre_eq_some p (p ++ r) r).mpr rfl

/-- If the pattern fits inside the concrete prefix `a`, matching against
    `a ++ b` is decided entirely by `a`. -/
theorem matchPre_append_fit : ∀ (w a b : List Char), w.length ≤ a.length →
    matchPre w (a ++ b) = (matchPre w a).map (· ++ b)
  | [], a, b, _ => by simp [matchPre]
  | _ :: _, [], b, h => by simp at h
  | p :: ps, c :: cs, b, h => by
    by_cases hpc : p = c
    · subst hpc
      simp only [List.cons_append, matchPre, if_pos rfl]
      exact matchPre_append_fit ps cs b (Nat.succ_le_succ_iff.mp h)
    · simp [matchPre, hpc]

/-- `true` when `w` disagrees with `a` at some position before either runs out;
    then no continuation of `a` can make the match succeed. -/
def mismatchWithin : List Char → List Char → Bool
  | [], _ => false
  | _, [] => false
  | p :: ps, c :: cs => if p = c then mismatchWithin ps cs else true

theorem matchPre_none_of_mismatch : ∀ (w a b : List Char),
    mismatchWithin w a = true → matchPre w (a ++ b) = none
  | [], a, b, h => by simp [mismatchWithin] at h
  | _ :: _, [], b, h => by simp [mismatchWithin] at h
  | p :: ps, c :: cs, b, h => by
    by_cases hpc : p = c
    · subst hpc
      simp only [mismatchWithin, if_pos rfl] at h
      simpa [matchPre] using matchPre_none_of_mismatch ps cs b h
    · simp [matchPre, hpc]

/-- Scan for the leftmost position at which `f` produces a match
    (the search behaviour of a JS regex over a subject string). -/
def scan {α : Type} (f : List Char → Option α) : List Char → Option α
  | [] => f []
  | c :: cs => oElse (f (c :: cs)) fun _ => scan f cs

theorem scan_cons_none {α : Type} (f : List Char → Option α) (c : Char)
    (cs : List Char) (h : f (c :: cs) = none) : scan f (c :: cs) = scan f cs := by
  simp [scan, h]

theorem scan_hit {α : Type} (f : List Char → Option α) (l : List Char) (v : α)
    (h : f l = some v) : scan f l = some v := by
  cases l <;> simp [scan, h]

theorem scan_append_skip {α : Type} (f : List Char → Option α) :
    ∀ (a b : List Char), (∀ i, i < a.length → f (a.drop i ++ b) = none) →
    scan f (a ++ b) = scan f b
  | [], b, _ => rfl
  | c :: cs, b, h => by
    have h0 : f ((c :: cs) ++ b) = none := by
      have := h 0 (Nat.succ_pos _)
      simpa using this
    rw [List.cons_append, scan_cons_none f c (cs ++ b) (by simpa using h0)]
    exact scan_append_skip f cs b fun i hi => by
      have := h (i + 1) (Nat.succ_lt_succ hi)
      simpa using this

/-! ## C1 — YouTubeService.extractVideoId (src/services/youtube.ts lines 11-25)

    Source patterns, tried in order over the whole input:
      /(?:youtube\.com\/watch\?v=|youtu\.be\/|youtube\.com\/embed\/)([a-zA-Z0-9_-]{11})/
      /youtube\.com\/watch\?.*v=([a-zA-Z0-9_-]{11})/                                  -/

/-- The id character class `[a-zA-Z0-9_-]`. -/
def idChar (c : Char) : Bool := c.isAlphanum || c = '_' || c = '-'

/-- Take exactly `n` id-class characters (`{11}` applied to the class). -/
def takeN : Nat → List Char → Option (List Char)
  | 0, _ => some []
  | _ + 1, [] => none
  | n + 1, c :: cs => if idChar c then (takeN n cs).map (c :: ·) else none

theorem takeN_all : ∀ (l : List Char), (∀ c ∈ l, idChar c = true) →
    takeN l.length l = some l
  | [], _ => rfl
  | c :: cs, h => by
    have hc : idChar c = true := h c (List.mem_cons_self c cs)
    have ih := takeN_all cs fun x hx => h x (List.mem_cons_of_mem c hx)
    simp [takeN, hc, ih]

/-- First alternative of the prefix group: `youtube.com/watch?v=`. -/
def w1 : List Char :=
  ['y', 'o', 'u', 't', 'u', 'b', 'e', '.', 'c', 'o', 'm', '/', 'w', 'a', 't',
   'c', 'h', '?', 'v', '=']

/-- Second alternative: `youtu.be/`. -/
def w2 : List Char := ['y', 'o', 'u', 't', 'u', '.', 'b', 'e', '/']

/-- Third alternative: `youtube.com/embed/`. -/
def w3 : List Char :=
  ['y', 'o', 'u', 't', 'u', 'b', 'e', '.', 'c', 'o', 'm', '/', 'e', 'm', 'b',
   'e', 'd', '/']

/-- Fixed head of the second pattern: `youtube.com/watch?`. -/
def w2pre : List Char :=
  ['y', 'o', 'u', 't', 'u', 'b', 'e', '.', 'c', 'o', 'm', '/', 'w', 'a', 't',
   'c', 'h', '?']

/-- Try one prefix alternative followed by the 11-character id group. -/
def tryPat (w l : List Char) : Option (List Char) :=
  match matchPre w l with
  | some r => takeN 11 r
  | none => none

/-- Pattern 1 at one position: ordered alternatives with backtracking. -/
def p1At (l : List Char) : Option (List Char) :=
  oElse (tryPat w1 l) fun _ => oElse (tryPat w2 l) fun _ => tryPat w3 l

/-- JS line terminators, which `.` does not match. -/
def lineTerm (c : Char) : Bool :=
  c = '\n' || c = '\r' || c = ' ' || c = ' '

/-- `v=` followed by the 11-character id group. -/
def vEqTake (l : List Char) : Option (List Char) :=
  match matchPre ['v', '='] l with
  | some r => takeN 11 r
  | none => none

/-- Greedy `.*v=([a-zA-Z0-9_-]{11})`: the rightmost `v=` match reachable
    without crossing a line terminator is preferred. -/
def p2find : List Char → Option (List Char)
  | [] => none
  | c :: cs =>
    if lineTerm c then vEqTake (c :: cs)
    else oElse (p2find cs) fun _ => vEqTake (c :: cs)

/-- Pattern 2 at one position. -/
def p2At (l : List Char) : Option (List Char) :=
  match matchPre w2pre l with
  | some r => p2find r
  | none => none

/-- `YouTubeService.extractVideoId`: the two patterns in order, each searched
    over the whole input; `none` models the `null` return. -/
def extractVideoId (s : String) : Option String :=
  match scan p1At s.data with
  | some v => some (String.mk v)
  | none => Option.map String.mk (scan p2At s.data)

/-- `YouTubeService.isValidYouTubeUrl`. -/
def isValidYouTubeUrl (s : String) : Bool := (extractVideoId s).isSome

theorem tryPat_append_none (w s b : List Char) (hlen : w.length ≤ s.length)
    (hm : matchPre w s = none) : tryPat w (s ++ b) = none := by
  unfold tryPat
  rw [matchPre_append_fit w s b hlen, hm]
  rfl

theorem p1At_cons_not_y (c : Char) (cs : List Char) (h : ¬ c = 'y') :
    p1At (c :: cs) = none := by
  have h' : ¬ ('y' = c) := fun hh => h hh.symm
  simp [p1At, tryPat, w1, w2, w3, matchPre, h']

theorem p2At_cons_not_y (c : Char) (cs : List Char) (h : ¬ c = 'y') :
    p2At (c :: cs) = none := by
  have h' : ¬ ('y' = c) := fun hh => h hh.symm
  simp [p2At, w2pre, matchPre, h']

theorem p1At_w1 (r : List Char) : p1At (w1 ++ r) = takeN 11 r := by
  unfold p1At
  rw [show tryPat w1 (w1 ++ r) = takeN 11 r by
        unfold tryPat; rw [matchPre_self_append]]
  cases h : takeN 11 r with
  | some v => rfl
  | none =>
    rw [tryPat_append_none w2 w1 r (by decide)
          (by have := matchPre_none_of_mismatch w2 w1 [] (by decide); simpa using this),
        tryPat_append_none w3 w1 r (by decide)
          (by have := matchPre_none_of_mismatch w3 w1 [] (by decide); simpa using this)]
    rfl

theorem p1At_w2 (r : List Char) : p1At (w2 ++ r) = takeN 11 r := by
  unfold p1At
  rw [show tryPat w1 (w2 ++ r) = none by
        unfold tryPat; rw [matchPre_none_of_mismatch w1 w2 r (by decide)],
      show tryPat w2 (w2 ++ r) = takeN 11 r by
        unfold tryPat; rw [matchPre_self_append]]
  cases h : takeN 11 r with
  | some v => rfl
  | none =>
    rw [show tryPat w3 (w2 ++ r) = none by
          unfold tryPat; rw [matchPre_none_of_mismatch w3 w2 r (by decide)]]
    rfl

theorem p1At_w3 (r : List Char) : p1At (w3 ++ r) = takeN 11 r := by
  unfold p1At
  rw [show tryPat w1 (w3 ++ r) = none by
        unfold tryPat; rw [matchPre_none_of_mismatch w1 w3 r (by decide)],
      show tryPat w2 (w3 ++ r) = none by
        unfold tryPat; rw [matchPre_none_of_mismatch w2 w3 r (by decide)]]
  rw [show tryPat w3 (w3 ++ r) = takeN 11 r by
        unfold tryPat; rw [matchPre_self_append]]
  cases h : takeN 11 r with
  | some v => rfl
  | none => rfl

theorem tryPat_none_noDot (w l : List Char) (hw : '.' ∈ w) (hl : '.' ∉ l) :
    tryPat w l = none := by
  unfold tryPat
  cases h : matchPre w l with
  | none => rfl
  | some r =>
    exfalso
    exact hl (((matchPre_eq_some w l r).mp h) ▸ List.mem_append_left r hw)

theorem p1At_noDot (l : List Char) (hl : '.' ∉ l) : p1At l = none := by
  unfold p1At
  rw [tryPat_none_noDot w1 l (by decide) hl, tryPat_none_noDot w2 l (by decide) hl,
      tryPat_none_noDot w3 l (by decide) hl]
  rfl

theorem p2At_noDot (l : List Char) (hl : '.' ∉ l) : p2At l = none := by
  unfold p2At
  cases h : matchPre w2pre l with
  | none => rfl
  | some r =>
    exfalso
    exact hl (((matchPre_eq_some w2pre l r).mp h) ▸
      List.mem_append_left r (by decide : '.' ∈ w2pre))

theorem scan_noDot {α : Type} (f : List Char → Option α)
    (hf : ∀ l, '.' ∉ l → f l = none) :
    ∀ l, '.' ∉ l → scan f l = none
  | [], h => hf [] h
  | c :: cs, h => by
    rw [scan_cons_none f c cs (hf _ h)]
    exact scan_noDot f hf cs fun hc => h (List.mem_cons_of_mem c hc)

theorem extractVideoId_noDot (s : String) (h : '.' ∉ s.data) :
    extractVideoId s = none := by
  unfold extractVideoId
  rw [scan_noDot p1At p1At_noDot s.data h, scan_noDot p2At p2At_noDot s.data h]
  rfl

/-- The JS whitespace class (`\s`, also the set trimmed by `String.trim`). -/
def jsWS (c : Char) : Bool :=
  c = ' ' || c = '\t' || c = '\n' || c = '\r' || c = '\x0b' || c = '\x0c' ||
  c = ' ' || c = ' ' || (' ' ≤ c && c ≤ ' ') ||
  c = ' ' || c = ' ' || c = ' ' || c = ' ' ||
  c = '　' || c = '﻿'

/-- Concrete part of a watch/embed URL before the first `y`. -/
def wSkip : List Char := ['h', 't', 't', 'p', 's', ':', '/', '/', 'w', 'w', 'w', '.']

/-- Concrete part of a short-link URL before the first `y`. -/
def sSkip : List Char := ['h', 't', 't', 'p', 's', ':', '/', '/']

theorem scanP1_pre (sk w : List Char) (l : List Char)
    (hsk : ∀ i, i < sk.length → p1At (sk.drop i ++ (w ++ l)) = none)
    (hw : p1At (w ++ l) = takeN 11 l)
    (h1 : l.length = 11) (h2 : ∀ c ∈ l, idChar c = true) :
    scan p1At (sk ++ (w ++ l)) = some l := by
  have ht : takeN 11 l = some l := by rw [← h1]; exact takeN_all l h2
  rw [scan_append_skip p1At sk (w ++ l) hsk]
  exact scan_hit _ _ _ (hw.trans ht)

theorem wSkip_skips (w : List Char) (l : List Char) :
    ∀ i, i < wSkip.length → p1At (wSkip.drop i ++ (w ++ l)) = none := by
  intro i hi
  have hi' : i < 12 := by simpa [wSkip] using hi
  interval_cases i <;>
    · simp only [wSkip, List.drop, List.cons_append]
      exact p1At_cons_not_y _ _ (by decide)

theorem sSkip_skips (w : List Char) (l : List Char) :
    ∀ i, i < sSkip.length → p1At (sSkip.drop i ++ (w ++ l)) = none := by
  intro i hi
  have hi' : i < 8 := by simpa [sSkip] using hi
  interval_cases i <;>
    · simp only [sSkip, List.drop, List.cons_append]
      exact p1At_cons_not_y _ _ (by decide)

theorem string_data_append (a b : String) : (a ++ b).data = a.data ++ b.data := rfl

/-- C1 (amended): for the watch-query, short-link and embed URL shapes carrying
    an embedded 11-character id, `extractVideoId` returns that id, and it
    returns `none` (never throws: it is a total function) on empty,
    whitespace-only or unrecognized input; however a bare 11-character token is
    NOT accepted — the source has no bare-token fallback pattern, so a bare id
    also returns `none`. -/
theorem C1_extractVideoId_amended :
    (∀ id : String, id.data.length = 11 → (∀ c ∈ id.data, idChar c = true) →
      extractVideoId ("https://www.youtube.com/watch?v=" ++ id) = some id ∧
      extractVideoId ("https://youtu.be/" ++ id) = some id ∧
      extractVideoId ("https://www.youtube.com/embed/" ++ id) = some id ∧
      extractVideoId id = none) ∧
    (∀ s : String, (∀ c ∈ s.data, jsWS c = true) → extractVideoId s = none) ∧
    extractVideoId "" = none ∧
    extractVideoId "https://example.com/page?x=abcdefghijk" = none := by
  refine ⟨?_, ?_, by decide, by decide⟩
  · intro id h1 h2
    refine ⟨?_, ?_, ?_, ?_⟩
    · unfold extractVideoId
      rw [show ("https://www.youtube.com/watch?v=" ++ id).data
            = wSkip ++ (w1 ++ id.data) by
          rw [string_data_append,
              show "https://www.youtube.com/watch?v=".data = wSkip ++ w1 by decide,
              List.append_assoc]]
      rw [scanP1_pre wSkip w1 id.data (wSkip_skips w1 id.data)
            (p1At_w1 id.data) h1 h2]
    · unfold extractVideoId
      rw [show ("https://youtu.be/" ++ id).data = sSkip ++ (w2 ++ id.data) by
          rw [string_data_append,
              show "https://youtu.be/".data = sSkip ++ w2 by decide,
              List.append_assoc]]
      rw [scanP1_pre sSkip w2 id.data (sSkip_skips w2 id.data)
            (p1At_w2 id.data) h1 h2]
    · unfold extractVideoId
      rw [show ("https://www.youtube.com/embed/" ++ id).data
            = wSkip ++ (w3 ++ id.data) by
          rw [string_data_append,
              show "https://www.youtube.com/embed/".data = wSkip ++ w3 by decide,
              List.append_assoc]]
      rw [scanP1_pre wSkip w3 id.data (wSkip_skips w3 id.data)
            (p1At_w3 id.data) h1 h2]
    · exact extractVideoId_noDot id fun hc => absurd (h2 '.' hc) (by decide)
  · intro s hs
    exact extractVideoId_noDot s fun hc => absurd (hs '.' hc) (by decide)

/-- C1 counterexample: a bare 11-character id token in the accepted character
    class is mapped to `none` by the source, not to the id the claim promises. -/
theorem C1_extractVideoId_counterexample :
    "dQw4w9WgXcQ".data.length = 11 ∧
    (∀ c ∈ "dQw4w9WgXcQ".data, idChar c = true) ∧
    extractVideoId "dQw4w9WgXcQ" = none := by decide

/-- C1 witness: the amended theorem applied at a concrete id and at a concrete
    whitespace-only input. -/
theorem C1_extractVideoId_witness :
    extractVideoId ("https://www.youtube.com/watch?v=" ++ "dQw4w9WgXcQ")
      = some "dQw4w9WgXcQ" ∧
    extractVideoId "  " = none :=
  ⟨(C1_extractVideoId_amended.1 "dQw4w9WgXcQ" (by decide) (by decide)).1,
   C1_extractVideoId_amended.2.1 "  " (by decide)⟩

/-! ## JS `String.replace` semantics

    `subject.replace(pattern, replacement)` with a literal pattern (or an
    equivalent global regex) scans left to right; the replacement string is
    interpreted: `$$` is a literal dollar, `$&` the matched text, a
    dollar-backquote the part of the subject before the match, `$'` the part
    after it; everything else is literal (the patterns used in the sources
    contain no capture groups, so `$1` stays literal). -/

/-- One pass over a JS replacement string; `pending` records a dollar sign
    read but not yet resolved. -/
def applyDollarGo (matched before after : List Char) : Bool → List Char → List Char
  | pending, [] => if pending then ['$'] else []
  | pending, c :: t =>
    if pending then
      (if c = '$' then ['$']
       else if c = '&' then matched
       else if c = Char.ofNat 96 then before
       else if c = '\'' then after
       else ['$', c]) ++ applyDollarGo matched before after false t
    else if c = '$' then applyDollarGo matched before after true t
    else c :: applyDollarGo matched before after false t

/-- Interpret a JS replacement string against one match. -/
def applyDollar (matched before after rep : List Char) : List Char :=
  applyDollarGo matched before after false rep

theorem applyDollarGo_no_dollar (matched before after : List Char) :
    ∀ rep : List Char, '$' ∉ rep →
      applyDollarGo matched before after false rep = rep := by
  intro rep
  induction rep with
  | nil => intro _; rfl
  | cons c t ih =>
    intro h
    have hc : ¬ c = '$' := fun hh => h (hh ▸ List.mem_cons_self _ _)
    have ht : '$' ∉ t := fun hm => h (List.mem_cons_of_mem c hm)
    simp only [applyDollarGo, Bool.false_eq_true, if_false, if_neg hc]
    rw [ih ht]

theorem applyDollar_no_dollar (matched before after : List Char)
    (rep : List Char) (h : '$' ∉ rep) :
    applyDollar matched before after rep = rep :=
  applyDollarGo_no_dollar matched before after rep h

/-- Global replace, one step of fuel per character of the subject; `pre` is
    the already-scanned part of the original subject (for the
    dollar-backquote form). -/
def replDGo (p0 : Char) (prest rep : List Char) : Nat → List Char → List Char → List Char
  | 0, _, l => l
  | _ + 1, _, [] => []
  | fuel + 1, pre, c :: t =>
    match matchPre (p0 :: prest) (c :: t) with
    | some rest =>
      applyDollar (p0 :: prest) pre rest rep ++
        replDGo p0 prest rep fuel (pre ++ (p0 :: prest)) rest
    | none => c :: replDGo p0 prest rep fuel (pre ++ [c]) t

/-- `subject.replace(/pat/g, rep)` for a nonempty literal pattern. -/
def jsReplaceAll (pat rep l : List Char) : List Char :=
  match pat with
  | [] => l
  | p0 :: prest => replDGo p0 prest rep l.length [] l

/-- First-occurrence-only replace (JS `replace` with a string pattern). -/
def replFGo (p0 : Char) (prest rep : List Char) : Nat → List Char → List Char → List Char
  | 0, _, l => l
  | _ + 1, _, [] => []
  | fuel + 1, pre, c :: t =>
    match matchPre (p0 :: prest) (c :: t) with
    | some rest => applyDollar (p0 :: prest) pre rest rep ++ rest
    | none => c :: replFGo p0 prest rep fuel (pre ++ [c]) t

/-- `subject.replace('pat', rep)` for a nonempty literal pattern. -/
def jsReplaceFirst (pat rep l : List Char) : List Char :=
  match pat with
  | [] => l
  | p0 :: prest => replFGo p0 prest rep l.length [] l

/-- Whether the pattern occurs anywhere in the subject. -/
def hasOcc (pat l : List Char) : Bool := (scan (matchPre pat) l).isSome

theorem hasOcc_cons_elim {pat : List Char} {c : Char} {cs : List Char}
    (h : hasOcc pat (c :: cs) = false) :
    matchPre pat (c :: cs) = none ∧ hasOcc pat cs = false := by
  unfold hasOcc at h ⊢
  unfold scan at h
  cases hm : matchPre pat (c :: cs) with
  | some r => rw [hm] at h; simp at h
  | none => rw [hm] at h; simpa using h

theorem hasOcc_false_of_head_notin (p0 : Char) (prest : List Char) :
    ∀ l : List Char, p0 ∉ l → hasOcc (p0 :: prest) l = false
  | [], _ => by simp [hasOcc, scan, matchPre]
  | c :: cs, h => by
    have hc : ¬ p0 = c := fun hh => h (hh ▸ List.mem_cons_self _ _)
    have ih := hasOcc_false_of_head_notin p0 prest cs
      fun hm => h (List.mem_cons_of_mem c hm)
    unfold hasOcc at ih ⊢
    unfold scan
    rw [show matchPre (p0 :: prest) (c :: cs) = none by simp [matchPre, hc]]
    simpa using ih

theorem replDGo_no_occ (p0 : Char) (prest rep : List Char) :
    ∀ (l : List Char) (fuel : Nat) (pre : List Char),
      hasOcc (p0 :: prest) l = false → replDGo p0 prest rep fuel pre l = l := by
  intro l
  induction l with
  | nil => intro fuel pre _; cases fuel <;> rfl
  | cons c t ih =>
    intro fuel pre h
    obtain ⟨h1, h2⟩ := hasOcc_cons_elim h
    cases fuel with
    | zero => rfl
    | succ n => simp only [replDGo, h1]; rw [ih n (pre ++ [c]) h2]

theorem replFGo_no_occ (p0 : Char) (prest rep : List Char) :
    ∀ (l : List Char) (fuel : Nat) (pre : List Char),
      hasOcc (p0 :: prest) l = false → replFGo p0 prest rep fuel pre l = l := by
  intro l
  induction l with
  | nil => intro fuel pre _; cases fuel <;> rfl
  | cons c t ih =>
    intro fuel pre h
    obtain ⟨h1, h2⟩ := hasOcc_cons_elim h
    cases fuel with
    | zero => rfl
    | succ n => simp only [replFGo, h1]; rw [ih n (pre ++ [c]) h2]

theorem jsReplaceAll_no_occ (pat rep l : List Char) (h : hasOcc pat l = false) :
    jsReplaceAll pat rep l = l := by
  cases pat with
  | nil => rfl
  | cons p0 prest => exact replDGo_no_occ p0 prest rep l l.length [] h

theorem jsReplaceFirst_no_occ (pat rep l : List Char) (h : hasOcc pat l = false) :
    jsReplaceFirst pat rep l = l := by
  cases pat with
  | nil => rfl
  | cons p0 prest => exact replFGo_no_occ p0 prest rep l l.length [] h

theorem matchPre_some_length {p l r : List Char} (h : matchPre p l = some r) :
    l.length = p.length + r.length := by
  rw [(matchPre_eq_some p l r).mp h, List.length_append]

theorem matchPre_cons_ne (p0 c : Char) (prest cs : List Char) (h : ¬ p0 = c) :
    matchPre (p0 :: prest) (c :: cs) = none := by
  simp [matchPre, h]

theorem matchPre_drop_none_of_notin (p0 : Char) (prest : List Char)
    (a bb : List Char) (hp : p0 ∉ a) :
    ∀ i, i < a.length → matchPre (p0 :: prest) (a.drop i ++ bb) = none := by
  intro i hi
  rw [List.drop_eq_getElem_cons hi, List.cons_append]
  refine matchPre_cons_ne _ _ _ _ fun hh => hp ?_
  rw [hh]
  exact List.getElem_mem hi

theorem replDGo_fuel (p0 : Char) (prest rep : List Char) :
    ∀ (f1 : Nat) (l : List Char) (f2 : Nat) (pre : List Char),
      l.length ≤ f1 → l.length ≤ f2 →
      replDGo p0 prest rep f1 pre l = replDGo p0 prest rep f2 pre l := by
  intro f1
  induction f1 with
  | zero =>
    intro l f2 pre h1 _
    have : l = [] := List.length_eq_zero.mp (Nat.le_zero.mp h1)
    subst this
    cases f2 <;> rfl
  | succ n ih =>
    intro l f2 pre h1 h2
    cases l with
    | nil => cases f2 <;> rfl
    | cons c t =>
      cases f2 with
      | zero => exact absurd h2 (by simp)
      | succ m =>
        cases hm : matchPre (p0 :: prest) (c :: t) with
        | some rest =>
          have hl := matchPre_some_length hm
          have hr : rest.length ≤ t.length := by
            simp only [List.length_cons] at hl
            omega
          simp only [replDGo, hm]
          rw [ih rest m (pre ++ (p0 :: prest))
            (by simp at h1; omega) (by simp at h2; omega)]
        | none =>
          have ht1 : t.length ≤ n := by simp at h1; omega
          have ht2 : t.length ≤ m := by simp at h2; omega
          simp only [replDGo, hm]
          rw [ih t m (pre ++ [c]) ht1 ht2]

theorem replFGo_fuel (p0 : Char) (prest rep : List Char) :
    ∀ (f1 : Nat) (l : List Char) (f2 : Nat) (pre : List Char),
      l.length ≤ f1 → l.length ≤ f2 →
      replFGo p0 prest rep f1 pre l = replFGo p0 prest rep f2 pre l := by
  intro f1
  induction f1 with
  | zero =>
    intro l f2 pre h1 _
    have : l = [] := List.length_eq_zero.mp (Nat.le_zero.mp h1)
    subst this
    cases f2 <;> rfl
  | succ n ih =>
    intro l f2 pre h1 h2
    cases l with
    | nil => cases f2 <;> rfl
    | cons c t =>
      cases f2 with
      | zero => exact absurd h2 (by simp)
      | succ m =>
        cases hm : matchPre (p0 :: prest) (c :: t) with
        | some rest => simp only [replFGo, hm]
        | none =>
          have ht1 : t.length ≤ n := by simp at h1; omega
          have ht2 : t.length ≤ m := by simp at h2; omega
          simp only [replFGo, hm]
          rw [ih t m (pre ++ [c]) ht1 ht2]

theorem replDGo_found (p0 : Char) (prest rep b : List Char) (fuel : Nat)
    (pre : List Char) :
    replDGo p0 prest rep (fuel + 1) pre ((p0 :: prest) ++ b)
      = applyDollar (p0 :: prest) pre b rep ++
          replDGo p0 prest rep fuel (pre ++ (p0 :: prest)) b := by
  have hm : matchPre (p0 :: prest) ((p0 :: prest) ++ b) = some b :=
    matchPre_self_append _ _
  simp only [List.cons_append] at hm ⊢
  simp only [replDGo, hm]

theorem replFGo_found (p0 : Char) (prest rep b : List Char) (fuel : Nat)
    (pre : List Char) :
    replFGo p0 prest rep (fuel + 1) pre ((p0 :: prest) ++ b)
      = applyDollar (p0 :: prest) pre b rep ++ b := by
  have hm : matchPre (p0 :: prest) ((p0 :: prest) ++ b) = some b :=
    matchPre_self_append _ _
  simp only [List.cons_append] at hm ⊢
  simp only [replFGo, hm]

theorem replDGo_clean_pre (p0 : Char) (prest rep : List Char) :
    ∀ (a b : List Char),
      (∀ i, i < a.length → matchPre (p0 :: prest) (a.drop i ++ b) = none) →
      ∀ (fuel fuel' : Nat) (pre : List Char),
        a.length + b.length ≤ fuel → b.length ≤ fuel' →
        replDGo p0 prest rep fuel pre (a ++ b)
          = a ++ replDGo p0 prest rep fuel' (pre ++ a) b
  | [], b, _, fuel, fuel', pre, h1, h2 => by
    simpa using replDGo_fuel p0 prest rep fuel b fuel' pre (by simpa using h1) h2
  | c :: as, b, ha, fuel, fuel', pre, h1, h2 => by
    cases fuel with
    | zero => exact absurd h1 (by simp)
    | succ n =>
      have h0 : matchPre (p0 :: prest) ((c :: as) ++ b) = none := by
        have := ha 0 (Nat.succ_pos _)
        simpa using this
      simp only [List.cons_append] at h0 ⊢
      simp only [replDGo, h0]
      rw [replDGo_clean_pre p0 prest rep as b
            (fun i hi => by
              have := ha (i + 1) (Nat.succ_lt_succ hi)
              simpa using this)
            n fuel' (pre ++ [c]) (by simp at h1 ⊢; omega) h2]
      rw [List.append_cons pre c as]

theorem replFGo_clean_pre (p0 : Char) (prest rep : List Char) :
    ∀ (a b : List Char),
      (∀ i, i < a.length → matchPre (p0 :: prest) (a.drop i ++ b) = none) →
      ∀ (fuel fuel' : Nat) (pre : List Char),
        a.length + b.length ≤ fuel → b.length ≤ fuel' →
        replFGo p0 prest rep fuel pre (a ++ b)
          = a ++ replFGo p0 prest rep fuel' (pre ++ a) b
  | [], b, _, fuel, fuel', pre, h1, h2 => by
    simpa using replFGo_fuel p0 prest rep fuel b fuel' pre (by simpa using h1) h2
  | c :: as, b, ha, fuel, fuel', pre, h1, h2 => by
    cases fuel with
    | zero => exact absurd h1 (by simp)
    | succ n =>
      have h0 : matchPre (p0 :: prest) ((c :: as) ++ b) = none := by
        have := ha 0 (Nat.succ_pos _)
        simpa using this
      simp only [List.cons_append] at h0 ⊢
      simp only [replFGo, h0]
      rw [replFGo_clean_pre p0 prest rep as b
            (fun i hi => by
              have := ha (i + 1) (Nat.succ_lt_succ hi)
              simpa using this)
            n fuel' (pre ++ [c]) (by simp at h1 ⊢; omega) h2]
      rw [List.append_cons pre c as]

/-- Replacement of the single occurrence of the pattern: everything before it,
    the interpreted replacement, then the untouched remainder. -/
theorem jsReplaceAll_single (p0 : Char) (prest rep a b : List Char)
    (ha : ∀ i, i < a.length →
      matchPre (p0 :: prest) (a.drop i ++ ((p0 :: prest) ++ b)) = none)
    (hb : hasOcc (p0 :: prest) b = false) :
    jsReplaceAll (p0 :: prest) rep (a ++ ((p0 :: prest) ++ b))
      = a ++ (applyDollar (p0 :: prest) a b rep ++ b) := by
  rw [show jsReplaceAll (p0 :: prest) rep (a ++ ((p0 :: prest) ++ b))
        = replDGo p0 prest rep (a ++ ((p0 :: prest) ++ b)).length []
            (a ++ ((p0 :: prest) ++ b)) from rfl]
  rw [replDGo_clean_pre p0 prest rep a ((p0 :: prest) ++ b) ha
        (a ++ ((p0 :: prest) ++ b)).length ((prest.length + b.length) + 1) []
        (by simp) (by simp)]
  rw [replDGo_found p0 prest rep b (prest.length + b.length) ([] ++ a)]
  rw [replDGo_no_occ p0 prest rep b _ _ hb]
  simp

theorem jsReplaceFirst_single (p0 : Char) (prest rep a b : List Char)
    (ha : ∀ i, i < a.length →
      matchPre (p0 :: prest) (a.drop i ++ ((p0 :: prest) ++ b)) = none) :
    jsReplaceFirst (p0 :: prest) rep (a ++ ((p0 :: prest) ++ b))
      = a ++ (applyDollar (p0 :: prest) a b rep ++ b) := by
  rw [show jsReplaceFirst (p0 :: prest) rep (a ++ ((p0 :: prest) ++ b))
        = replFGo p0 prest rep (a ++ ((p0 :: prest) ++ b)).length []
            (a ++ ((p0 :: prest) ++ b)) from rfl]
  rw [replFGo_clean_pre p0 prest rep a ((p0 :: prest) ++ b) ha
        (a ++ ((p0 :: prest) ++ b)).length ((prest.length + b.length) + 1) []
        (by simp) (by simp)]
  rw [replFGo_found p0 prest rep b (prest.length + b.length) ([] ++ a)]
  simp

/-! ## C4 — ExtractionService.handleLLMError (src/services/extraction.ts 123-155) -/

/-- The `LLMResponse` record (summary / keyPoints / tags / questions). -/
structure LLMResponse where
  summary : String
  keyPoints : List String
  tags : List String
  questions : List String
deriving DecidableEq

/-- `ExtractionService.handleLLMError`: `behavior` is the configured
    `errorBehavior`, `msg` the caught error message. `Except.error` models the
    re-thrown error (the pipeline then fails), `Except.ok` the substituted
    response with which the pipeline continues to template rendering. -/
def handleLLMError (behavior msg : String) : Except String LLMResponse :=
  if behavior = "stop" then
    Except.error ("LLM generation failed: " ++ msg)
  else if behavior = "partial" ∨ behavior = "skip" then
    Except.ok ⟨if behavior = "skip" then "LLM unavailable" else "", [], [], []⟩
  else
    Except.ok ⟨"", [], [], []⟩

/-- C4 (amended): on a generation failure, policy "stop" fails the pipeline;
    policy "partial" (and any unrecognized policy value) substitutes the
    all-empty `LLMResponse` and continues; but policy "skip" substitutes the
    marker summary "LLM unavailable" (with empty key-point/tag/question
    lists), not an empty summary. -/
theorem C4_handleLLMError_amended :
    (∀ msg, handleLLMError "stop" msg
      = Except.error ("LLM generation failed: " ++ msg)) ∧
    (∀ msg, handleLLMError "partial" msg = Except.ok ⟨"", [], [], []⟩) ∧
    (∀ msg, handleLLMError "skip" msg
      = Except.ok ⟨"LLM unavailable", [], [], []⟩) ∧
    (∀ behavior msg, behavior ≠ "stop" → behavior ≠ "partial" →
      behavior ≠ "skip" →
      handleLLMError behavior msg = Except.ok ⟨"", [], [], []⟩) := by
  refine ⟨fun msg => rfl, fun msg => rfl, fun msg => rfl, ?_⟩
  intro behavior msg h1 h2 h3
  unfold handleLLMError
  rw [if_neg h1, if_neg (by rintro (h | h) <;> [exact h2 h; exact h3 h])]

/-- C4 counterexample: under policy "skip" the substituted summary is the
    marker string "LLM unavailable", while the claim demands an empty
    summary for every non-"stop" policy. -/
theorem C4_handleLLMError_counterexample :
    handleLLMError "skip" "boom"
      = Except.ok ⟨"LLM unavailable", [], [], []⟩ ∧
    ("LLM unavailable" : String) ≠ "" := by
  exact ⟨rfl, by decide⟩

/-- C4 witness: the amended theorem applied at a concrete unrecognized
    policy value. -/
theorem C4_handleLLMError_witness :
    handleLLMError "retry" "boom" = Except.ok ⟨"", [], [], []⟩ :=
  C4_handleLLMError_amended.2.2.2 "retry" "boom" (by decide) (by decide)
    (by decide)

/-! ## C5 — YouTubeService.parseTranscriptJson (src/services/youtube.ts 145-179) -/

/-- One transcript segment (text, offset in ms, duration in ms). -/
structure TranscriptSegment where
  text : String
  offset : Int
  duration : Int
deriving DecidableEq

/-- One piece of a structured event (`{utf8: ...}`). -/
structure SegPiece where
  utf8 : Option String
deriving DecidableEq

/-- One structured event; `segs` is absent for timing markers. -/
structure TEvent where
  segs : Option (List SegPiece)
  tStartMs : Option Int
  dDurationMs : Option Int
deriving DecidableEq

/-- The JSON3 payload (`data.events`). -/
structure TranscriptJson where
  events : Option (List TEvent)
deriving DecidableEq

/-- The zero-width class `[​-‍﻿]`. -/
def zeroWidth (c : Char) : Bool :=
  ('​' ≤ c && c ≤ '‍') || c = '﻿'

/-- Strip zero-width characters. -/
def removeZW (l : List Char) : List Char := l.filter fun c => !zeroWidth c

/-- `\s+` to a single space, one pass with a previous-was-whitespace flag. -/
def collapseWSGo : Bool → List Char → List Char
  | _, [] => []
  | prevWS, c :: t =>
    if jsWS c then
      if prevWS then collapseWSGo true t else ' ' :: collapseWSGo true t
    else c :: collapseWSGo false t

/-- `.replace(/\s+/g, ' ')`. -/
def collapseWS (l : List Char) : List Char := collapseWSGo false l

/-- JS `String.trim()`. -/
def jsTrim (l : List Char) : List Char :=
  ((l.dropWhile jsWS).reverse.dropWhile jsWS).reverse

/-- Normalized text of one event: pieces joined, zero-width characters
    stripped, whitespace collapsed, trimmed. -/
def segText (ss : List SegPiece) : List Char :=
  jsTrim (collapseWS (removeZW
    ((ss.map fun s => (s.utf8.getD "").data).flatten)))

/-- The loop body of `parseTranscriptJson` over the event list. -/
def parseEvents : List TEvent → List TranscriptSegment
  | [] => []
  | e :: es =>
    match e.segs with
    | none => parseEvents es
    | some ss =>
      if _h : segText ss ≠ [] then
        { text := String.mk (segText ss), offset := e.tStartMs.getD 0,
          duration := e.dDurationMs.getD 0 } :: parseEvents es
      else parseEvents es

/-- `YouTubeService.parseTranscriptJson`. -/
def parseTranscriptJson (data : TranscriptJson) : List TranscriptSegment :=
  match data.events with
  | none => []
  | some evs => parseEvents evs

theorem parseEvents_append : ∀ (a b : List TEvent),
    parseEvents (a ++ b) = parseEvents a ++ parseEvents b
  | [], b => rfl
  | e :: es, b => by
    cases hs : e.segs with
    | none =>
      simp only [List.cons_append, parseEvents, hs]
      exact parseEvents_append es b
    | some ss =>
      by_cases ht : segText ss ≠ []
      · simp only [List.cons_append, parseEvents, hs, dif_pos ht]
        rw [show parseEvents (es.append b) = parseEvents es ++ parseEvents b
              from parseEvents_append es b]
      · simp only [List.cons_append, parseEvents, hs, dif_neg ht]
        exact parseEvents_append es b

/-- C5 (amended): events without a segment list are ignored; an event with a
    segment list whose normalized text (pieces joined, zero-width characters
    stripped, whitespace collapsed, trimmed) is nonempty contributes exactly
    one segment; events whose normalized text is empty are dropped; and the
    claim's concrete instance evaluates to exactly one segment
    `{text := "Hello world", offset := 1000, duration := 500}`. -/
theorem C5_parseTranscriptJson_amended :
    (∀ (pre post : List TEvent) (e : TEvent), e.segs = none →
      parseEvents (pre ++ e :: post) = parseEvents (pre ++ post)) ∧
    (∀ (pre post : List TEvent) (e : TEvent) (ss : List SegPiece),
      e.segs = some ss → segText ss ≠ [] →
      parseEvents (pre ++ e :: post)
        = parseEvents pre ++
            ({ text := String.mk (segText ss), offset := e.tStartMs.getD 0,
               duration := e.dDurationMs.getD 0 } :: parseEvents post)) ∧
    (∀ (pre post : List TEvent) (e : TEvent) (ss : List SegPiece),
      e.segs = some ss → segText ss = [] →
      parseEvents (pre ++ e :: post) = parseEvents (pre ++ post)) ∧
    parseTranscriptJson
        ⟨some [⟨none, some 5, some 7⟩,
               ⟨some [⟨some "Hello"⟩, ⟨some " world"⟩], some 1000, some 500⟩]⟩
      = [⟨"Hello world", 1000, 500⟩] := by
  refine ⟨?_, ?_, ?_, by decide⟩
  · intro pre post e hs
    rw [parseEvents_append, parseEvents_append]
    simp only [parseEvents, hs]
  · intro pre post e ss hs ht
    rw [parseEvents_append]
    simp only [parseEvents, hs, dif_pos ht]
  · intro pre post e ss hs ht
    rw [parseEvents_append, parseEvents_append]
    have ht' : ¬ segText ss ≠ [] := fun hh => hh ht
    simp only [parseEvents, hs, dif_neg ht']

/-- C5 counterexample: an event carrying the (empty) segment list `[]` — an
    event "with a segment list" — produces no output segment at all, while
    the claim says each such event emits one segment. -/
theorem C5_parseTranscriptJson_counterexample :
    parseTranscriptJson ⟨some [⟨some [], some 1000, some 500⟩]⟩ = [] ∧
    (0 : Nat) ≠ 1 := by
  exact ⟨by decide, by decide⟩

/-- C5 witness: the amended theorem applied to concrete event lists. -/
theorem C5_parseTranscriptJson_witness :
    parseEvents [⟨none, some 5, some 7⟩] = parseEvents [] ∧
    parseEvents [⟨some [⟨some "Hi"⟩], some 3, some 4⟩]
      = parseEvents [] ++
          ({ text := String.mk (segText [⟨some "Hi"⟩]), offset := (3 : Int),
             duration := (4 : Int) } :: parseEvents []) :=
  ⟨C5_parseTranscriptJson_amended.1 [] [] ⟨none, some 5, some 7⟩ rfl,
   C5_parseTranscriptJson_amended.2.1 [] [] ⟨some [⟨some "Hi"⟩], some 3, some 4⟩
     [⟨some "Hi"⟩] rfl (by decide)⟩

/-! ## C8 — TemplateService.formatTagsYAML / formatTagsHashtags
    (src/services/extraction.ts 474-510) -/

/-- The `\w` class `[A-Za-z0-9_]`. -/
def wordChar (c : Char) : Bool :=
  (65 ≤ c.toNat && c.toNat ≤ 90) || (97 ≤ c.toNat && c.toNat ≤ 122) ||
  (48 ≤ c.toNat && c.toNat ≤ 57) || c = '_'

/-- `\s+` runs to a single hyphen, one pass. -/
def hyphenGo : Bool → List Char → List Char
  | _, [] => []
  | prevWS, c :: t =>
    if jsWS c then
      if prevWS then hyphenGo true t else '-' :: hyphenGo true t
    else c :: hyphenGo false t

def isHyphen (c : Char) : Bool := c = '-'

/-- `.replace(/^-+|-+$/g, '')`. -/
def trimHyphens (l : List Char) : List Char :=
  ((l.dropWhile isHyphen).reverse.dropWhile isHyphen).reverse

/-- The per-tag cleanup shared by both formatters: lower-case (`toLowerCase`,
    modelled on the basic-latin range), drop `[^\w\s-]`, turn whitespace runs
    into single hyphens, trim leading/trailing hyphens. -/
def cleanTag (t : String) : List Char :=
  trimHyphens (hyphenGo false
    ((t.data.map Char.toLower).filter fun c => wordChar c || jsWS c || isHyphen c))

/-- `TemplateService.formatTagsYAML` (undefined/empty input gives `""`). -/
def formatTagsYAML (tags : Option (List String)) : String :=
  match tags with
  | none => ""
  | some ts =>
    if ts.isEmpty then ""
    else
      "\n" ++ String.intercalate "\n"
        (((ts.map cleanTag).filter fun l => 0 < l.length).map
          fun l => "  - " ++ String.mk l)

/-- `TemplateService.formatTagsHashtags`. -/
def formatTagsHashtags (tags : Option (List String)) : String :=
  match tags with
  | none => ""
  | some ts =>
    if ts.isEmpty then ""
    else String.intercalate " " (ts.map fun t => "#" ++ String.mk (cleanTag t))

theorem char_toNat_ofNat (n : Nat) (h : n.isValidChar) :
    (Char.ofNat n).toNat = n := by
  rw [Char.ofNat, dif_pos h]
  rfl

theorem toLower_not_upper (c : Char) :
    ¬ (65 ≤ (Char.toLower c).toNat ∧ (Char.toLower c).toNat ≤ 90) := by
  unfold Char.toLower
  by_cases h : c.toNat ≥ 65 ∧ c.toNat ≤ 90
  · rw [if_pos h]
    rw [char_toNat_ofNat (c.toNat + 32) (Or.inl (by omega))]
    omega
  · rw [if_neg h]
    omega

theorem hyphenGo_mem : ∀ (b : Bool) (l : List Char) (c : Char),
    c ∈ hyphenGo b l → c = '-' ∨ (c ∈ l ∧ jsWS c = false)
  | _, [], c, h => by simp [hyphenGo] at h
  | b, d :: t, c, h => by
    by_cases hd : jsWS d = true
    · simp only [hyphenGo, if_pos hd] at h
      cases b with
      | true =>
        rcases hyphenGo_mem true t c h with h' | ⟨h1, h2⟩
        · exact Or.inl h'
        · exact Or.inr ⟨List.mem_cons_of_mem d h1, h2⟩
      | false =>
        rcases List.mem_cons.mp h with h' | h'
        · exact Or.inl h'
        · rcases hyphenGo_mem true t c h' with h'' | ⟨h1, h2⟩
          · exact Or.inl h''
          · exact Or.inr ⟨List.mem_cons_of_mem d h1, h2⟩
    · have hd' : jsWS d = false := by
        cases hdd : jsWS d
        · rfl
        · exact absurd hdd hd
      simp only [hyphenGo, hd', Bool.false_eq_true, if_false] at h
      rcases List.mem_cons.mp h with h' | h'
      · exact Or.inr ⟨h' ▸ List.mem_cons_self d t, h' ▸ hd'⟩
      · rcases hyphenGo_mem false t c h' with h'' | ⟨h1, h2⟩
        · exact Or.inl h''
        · exact Or.inr ⟨List.mem_cons_of_mem d h1, h2⟩

theorem trimHyphens_mem {l : List Char} {c : Char} (h : c ∈ trimHyphens l) :
    c ∈ l := by
  unfold trimHyphens at h
  rw [List.mem_reverse] at h
  have h1 := List.dropWhile_subset isHyphen h
  rw [List.mem_reverse] at h1
  exact List.dropWhile_subset isHyphen h1

theorem getLast?_dropWhile_of_ne_nil (p : Char → Bool) :
    ∀ x : List Char, x.dropWhile p ≠ [] → (x.dropWhile p).getLast? = x.getLast?
  | [], h => absurd rfl h
  | a :: t, h => by
    by_cases hp : p a = true
    · have hdw : (a :: t).dropWhile p = t.dropWhile p := by
        simp [List.dropWhile, hp]
      rw [hdw] at h ⊢
      cases t with
      | nil => exact absurd rfl h
      | cons b t' =>
        rw [getLast?_dropWhile_of_ne_nil p (b :: t') h, List.getLast?_cons_cons]
    · have hp' : p a = false := by
        cases hpp : p a
        · rfl
        · exact absurd hpp hp
      simp [List.dropWhile, hp']

theorem trimHyphens_head {l : List Char} {c : Char}
    (h : (trimHyphens l).head? = some c) : isHyphen c = false := by
  unfold trimHyphens at h
  rw [List.head?_reverse] at h
  have hne : (l.dropWhile isHyphen).reverse.dropWhile isHyphen ≠ [] := by
    intro hnil
    rw [hnil] at h
    simp at h
  rw [getLast?_dropWhile_of_ne_nil isHyphen _ hne, List.getLast?_reverse] at h
  have := List.head?_dropWhile_not isHyphen l
  rw [h] at this
  exact this

theorem trimHyphens_last {l : List Char} {c : Char}
    (h : (trimHyphens l).getLast? = some c) : isHyphen c = false := by
  unfold trimHyphens at h
  rw [List.getLast?_reverse] at h
  have := List.head?_dropWhile_not isHyphen (l.dropWhile isHyphen).reverse
  rw [h] at this
  exact this

/-- C8 (confirmed): the concrete instance from the claim, plus the general
    shape of the per-tag cleanup — every output character is a word character
    or hyphen, never an ASCII upper-case letter and never whitespace, and the
    cleaned tag neither starts nor ends with a hyphen. -/
theorem C8_formatTags_confirmed :
    formatTagsHashtags (some ["Machine Learning", "AI!"])
      = "#machine-learning #ai" ∧
    formatTagsYAML (some ["Machine Learning", "AI!"])
      = "\n  - machine-learning\n  - ai" ∧
    (∀ (t : String) (c : Char), c ∈ cleanTag t →
      (wordChar c || isHyphen c) = true ∧
      ¬ (65 ≤ c.toNat ∧ c.toNat ≤ 90) ∧ jsWS c = false) ∧
    (∀ t : String, (cleanTag t).head? ≠ some '-' ∧
      (cleanTag t).getLast? ≠ some '-') := by
  refine ⟨by decide, by decide, ?_, ?_⟩
  · intro t c hc
    have hmem := trimHyphens_mem hc
    rcases hyphenGo_mem false _ c hmem with hh | ⟨h1, h2⟩
    · refine ⟨by simp [hh, isHyphen], ?_, ?_⟩
      · rw [hh]; decide
      · rw [hh]; decide
    · have hf := List.mem_filter.mp h1
      have hmap := hf.1
      have hpred := hf.2
      rcases List.mem_map.mp hmap with ⟨d, _, hd⟩
      have hup : ¬ (65 ≤ c.toNat ∧ c.toNat ≤ 90) := hd ▸ toLower_not_upper d
      refine ⟨?_, hup, h2⟩
      have : (wordChar c || jsWS c || isHyphen c) = true := hpred
      rcases Bool.or_eq_true_iff.mp this with h' | h'
      · rcases Bool.or_eq_true_iff.mp h' with h'' | h''
        · simp [h'']
        · rw [h''] at h2; exact absurd h2 (by simp)
      · simp [h']
  · intro t
    constructor
    · intro h
      have := trimHyphens_head h
      simp [isHyphen] at this
    · intro h
      have := trimHyphens_last h
      simp [isHyphen] at this

/-! ## C7 — TemplateService.resolveFileNameConflict
    (src/services/extraction.ts 552-573)

    The vault (`app.vault.getAbstractFileByPath`) is modelled as the list of
    existing paths; `behavior` is `settings.fileExistsBehavior`. The source's
    `while` loop terminates within `vault.length + 1` probes, because each
    occupied candidate is a distinct vault entry; the fuel below is exactly
    that bound, so the fuel-exhausted arm is unreachable. -/

/-- `path.replace('.md', '')`: the FIRST occurrence of ".md" removed. -/
def mdBase (path : String) : String :=
  String.mk (jsReplaceFirst ['.', 'm', 'd'] [] path.data)

/-- The probed candidate `` `${pathWithoutExt} ${counter}.md` ``. -/
def mdCand (path : String) (k : Nat) : String :=
  mdBase path ++ " " ++ Nat.repr k ++ ".md"

/-- The `while (exists(newPath))` probe loop, counter starting at `counter`. -/
def findFree (vault : List String) (path : String) : Nat → Nat → String
  | 0, counter => mdCand path counter
  | fuel + 1, counter =>
    if vault.contains (mdCand path counter) then
      findFree vault path fuel (counter + 1)
    else mdCand path counter

/-- `TemplateService.resolveFileNameConflict`. -/
def resolveFileNameConflict (vault : List String) (behavior path : String) :
    String :=
  if vault.contains path then
    if behavior = "append" then findFree vault path (vault.length + 1) 1
    else path
  else path

theorem findFree_spec (vault : List String) (path : String) :
    ∀ (fuel k c : Nat), c ≤ k →
      (∀ j, c ≤ j → j < k → vault.contains (mdCand path j) = true) →
      vault.contains (mdCand path k) = false →
      k - c < fuel →
      findFree vault path fuel c = mdCand path k := by
  intro fuel
  induction fuel with
  | zero => intro k c _ _ _ hf; omega
  | succ n ih =>
    intro k c hck hall hfree hf
    by_cases hck' : c = k
    · subst hck'
      unfold findFree
      rw [if_neg (by simpa using hfree)]
    · have hc : vault.contains (mdCand path c) = true :=
        hall c (le_refl c) (by omega)
      simp only [findFree, hc, if_true]
      exact ih k (c + 1) (by omega)
        (fun j hj1 hj2 => hall j (by omega) hj2) hfree (by omega)

/-- C7 (amended): `resolveFileNameConflict` leaves a path not present in the
    file-store unchanged (so a second call returns it unchanged too, for any
    policy); under "append" on an existing path it returns the candidate with
    the smallest unused counter `k ≥ 1` — but the candidate base is the path
    with its FIRST ".md" occurrence removed (`path.replace('.md', '')`),
    which coincides with "suffix inserted before the extension" exactly when
    the only ".md" in the path is its final extension (third conjunct). -/
theorem C7_resolveFileNameConflict_amended :
    (∀ (vault : List String) (behavior path : String),
      vault.contains path = false →
      resolveFileNameConflict vault behavior path = path ∧
      resolveFileNameConflict vault behavior
        (resolveFileNameConflict vault behavior path) = path) ∧
    (∀ (vault : List String) (path : String) (k : Nat),
      vault.contains path = true → 1 ≤ k → k ≤ vault.length + 1 →
      (∀ j, 1 ≤ j → j < k → vault.contains (mdCand path j) = true) →
      vault.contains (mdCand path k) = false →
      resolveFileNameConflict vault "append" path = mdCand path k) ∧
    (∀ base : String, ('.' : Char) ∉ base.data →
      mdBase (base ++ ".md") = base) := by
  refine ⟨?_, ?_, ?_⟩
  · intro vault behavior path h
    have h1 : resolveFileNameConflict vault behavior path = path := by
      unfold resolveFileNameConflict
      rw [h]
      simp
    exact ⟨h1, by rw [h1, h1]⟩
  · intro vault path k hex hk1 hk2 hall hfree
    unfold resolveFileNameConflict
    rw [hex]
    simp only [if_true, if_pos rfl]
    exact findFree_spec vault path (vault.length + 1) k 1 hk1 hall hfree
      (by omega)
  · intro base hb
    unfold mdBase
    rw [show (base ++ ".md").data = base.data ++ (['.', 'm', 'd'] ++ []) by
      rw [string_data_append]; simp]
    rw [jsReplaceFirst_single '.' ['m', 'd'] [] base.data []
      (matchPre_drop_none_of_notin '.' ['m', 'd'] base.data
        (['.', 'm', 'd'] ++ []) hb)]
    rw [applyDollar_no_dollar _ _ _ [] (by simp)]
    simp

/-- C7 counterexample: on a path whose first ".md" occurrence is not the final
    extension, the suffix is NOT inserted before the extension: the source
    mangles `a.mdx.md` to `ax.md 1.md` instead of `a.mdx 1.md`. -/
theorem C7_resolveFileNameConflict_counterexample :
    resolveFileNameConflict ["a.mdx.md"] "append" "a.mdx.md" = "ax.md 1.md" ∧
    ("ax.md 1.md" : String) ≠ "a.mdx 1.md" := by
  exact ⟨by decide, by decide⟩

/-- C7 witness: the amended theorem applied at concrete vaults and paths. -/
theorem C7_resolveFileNameConflict_witness :
    resolveFileNameConflict ["n.md"] "append" "note.md" = "note.md" ∧
    resolveFileNameConflict ["note.md", "note 1.md"] "append" "note.md"
      = mdCand "note.md" 2 ∧
    mdBase ("note" ++ ".md") = "note" :=
  ⟨(C7_resolveFileNameConflict_amended.1 ["n.md"] "append" "note.md"
      (by decide)).1,
   C7_resolveFileNameConflict_amended.2.1 ["note.md", "note 1.md"] "note.md" 2
     (by decide) (by decide) (by decide)
     (fun j hj1 hj2 => by
       have : j = 1 := by omega
       subst this
       decide)
     (by decide),
   C7_resolveFileNameConflict_amended.2.2 "note" (by decide)⟩

/-- C8 witness: the character-shape conjunct applied at a concrete tag and
    character. -/
theorem C8_formatTags_witness :
    (wordChar 'a' || isHyphen 'a') = true ∧
    ¬ (65 ≤ Char.toNat 'a' ∧ Char.toNat 'a' ≤ 90) ∧ jsWS 'a' = false :=
  C8_formatTags_confirmed.2.2.1 "AI!" 'a' (by decide)

/-! ## C9 — YouTubeService.fetchMetadata (src/services/youtube.ts 235-280)

    The page fetch is a collaborator: `Except.error` models a rejected
    `requestUrl` (or any failure inside the `try`), `Except.ok html` the
    fetched page text. `today` models `new Date().toISOString().split('T')[0]`. -/

/-- The video metadata record. -/
structure VideoMetadata where
  title : String
  url : String
  videoId : String
  channel : String
  uploadDate : String
  duration : String
  viewCount : Nat
  description : String
  channelUrl : String
  thumbnailUrl : String
deriving DecidableEq

/-- Greedy scan of `(?:\\.|[^"\\])+` units; `esc` records a consumed
    backslash awaiting its escaped character. Returns the consumed content
    and the remainder (a lone trailing backslash is given back, matching the
    regex, which cannot consume it as a unit). -/
def jsonStrGo : Bool → List Char → (List Char × List Char)
  | true, [] => ([], ['\\'])
  | false, [] => ([], [])
  | true, d :: cs =>
    let p := jsonStrGo false cs
    ('\\' :: d :: p.1, p.2)
  | false, c :: cs =>
    if c = '\\' then jsonStrGo true cs
    else if c = '"' then ([], c :: cs)
    else
      let p := jsonStrGo false cs
      (c :: p.1, p.2)

/-- `/"<key>":"((?:\\.|[^"\\])+)"/` at one position. -/
def strFieldAt (pre l : List Char) : Option (List Char) :=
  match matchPre pre l with
  | some r =>
    match jsonStrGo false r with
    | (content, rest) =>
      match content, rest with
      | [], _ => none
      | _ :: _, '"' :: _ => some content
      | _, _ => none
  | none => none

/-- `/"<key>":"(\d+)"/` at one position. -/
def digitFieldAt (pre l : List Char) : Option (List Char) :=
  match matchPre pre l with
  | some r =>
    match r.takeWhile Char.isDigit, r.dropWhile Char.isDigit with
    | [], _ => none
    | ds, '"' :: _ => some ds
    | _, _ => none
  | none => none

/-- `extractFromHTML` for the escaped-string-valued fields. -/
def extractStrField (html pre : List Char) : Option (List Char) :=
  scan (strFieldAt pre) html

/-- `extractFromHTML` for the digit-valued fields. -/
def extractDigitField (html pre : List Char) : Option (List Char) :=
  scan (digitFieldAt pre) html

/-- `YouTubeService.decodeHTML`: sequential global replaces, in the entity
    dictionary's insertion order. -/
def decodeHTML (l : List Char) : List Char :=
  [(['&', 'a', 'm', 'p', ';'], ['&']),
   (['&', 'l', 't', ';'], ['<']),
   (['&', 'g', 't', ';'], ['>']),
   (['&', 'q', 'u', 'o', 't', ';'], ['"']),
   (['&', '#', '3', '9', ';'], ['\'']),
   (['\\', 'u', '0', '0', '2', '6'], ['&']),
   (['\\', 'n'], ['\n']),
   (['\\', '"'], ['"']),
   (['\\', '\''], ['\''])].foldl (fun acc pr => jsReplaceAll pr.1 pr.2 acc) l

/-- `parseInt` on an all-digit capture. -/
def parsePosInt (ds : List Char) : Nat :=
  ds.foldl (fun n c => n * 10 + (c.toNat - 48)) 0

/-- `YouTubeService.formatDuration`. -/
def formatDuration (seconds : Nat) : String :=
  let hours := seconds / 3600
  let minutes := (seconds % 3600) / 60
  let secs := seconds % 60
  if 0 < hours then
    Nat.repr hours ++ "h " ++ Nat.repr minutes ++ "m " ++ Nat.repr secs ++ "s"
  else if 0 < minutes then
    Nat.repr minutes ++ "m " ++ Nat.repr secs ++ "s"
  else
    Nat.repr secs ++ "s"

/-- `"title":"` and the other field heads searched for in the page. -/
def titlePre : List Char := ['"', 't', 'i', 't', 'l', 'e', '"', ':', '"']

def authorPre : List Char :=
  ['"', 'a', 'u', 't', 'h', 'o', 'r', '"', ':', '"']

def lengthSecondsPre : List Char :=
  ['"', 'l', 'e', 'n', 'g', 't', 'h', 'S', 'e', 'c', 'o', 'n', 'd', 's', '"',
   ':', '"']

def viewCountPre : List Char :=
  ['"', 'v', 'i', 'e', 'w', 'C', 'o', 'u', 'n', 't', '"', ':', '"']

def publishDatePre : List Char :=
  ['"', 'p', 'u', 'b', 'l', 'i', 's', 'h', 'D', 'a', 't', 'e', '"', ':', '"']

def shortDescriptionPre : List Char :=
  ['"', 's', 'h', 'o', 'r', 't', 'D', 'e', 's', 'c', 'r', 'i', 'p', 't', 'i',
   'o', 'n', '"', ':', '"']

/-- `YouTubeService.fetchMetadata`. -/
def fetchMetadata (page : Except String String) (videoId today : String) :
    VideoMetadata :=
  match page with
  | Except.error _ =>
    { title := "Video " ++ videoId,
      url := "https://www.youtube.com/watch?v=" ++ videoId,
      videoId := videoId,
      channel := "Unknown",
      uploadDate := today,
      duration := "0:00",
      viewCount := 0,
      description := "",
      channelUrl := "",
      thumbnailUrl := "https://i.ytimg.com/vi/" ++ videoId
        ++ "/maxresdefault.jpg" }
  | Except.ok html =>
    let h := html.data
    let title :=
      decodeHTML ((extractStrField h titlePre).getD ("Video " ++ videoId).data)
    let channel :=
      decodeHTML ((extractStrField h authorPre).getD "Unknown Channel".data)
    let lengthSeconds := (extractDigitField h lengthSecondsPre).getD ['0']
    let viewCount := (extractDigitField h viewCountPre).getD ['0']
    let publishDate := (extractStrField h publishDatePre).getD today.data
    let description := decodeHTML ((extractStrField h shortDescriptionPre).getD [])
    { title := String.mk title,
      url := "https://www.youtube.com/watch?v=" ++ videoId,
      videoId := videoId,
      channel := String.mk channel,
      uploadDate := String.mk publishDate,
      duration := formatDuration (parsePosInt lengthSeconds),
      viewCount := parsePosInt viewCount,
      description := String.mk description,
      channelUrl := "https://www.youtube.com/channel/" ++ videoId,
      thumbnailUrl := "https://i.ytimg.com/vi/" ++ videoId
        ++ "/maxresdefault.jpg" }

/-- The aggregate returned by `extractVideo`. -/
structure YouTubeData where
  metadata : VideoMetadata
  transcript : String
  timestampedTranscript : List TranscriptSegment
deriving DecidableEq

/-- `YouTubeService.extractVideo`: id validation, then metadata and
    transcript fetches (`Promise.all`); the transcript fetch result is the
    collaborator `tr`, the page fetch result `page`. -/
def extractVideo (url : String) (page : Except String String)
    (tr : Except String (String × List TranscriptSegment)) (today : String) :
    Except String YouTubeData :=
  match extractVideoId url with
  | none => Except.error "Invalid YouTube URL"
  | some vid =>
    match tr with
    | Except.error e => Except.error e
    | Except.ok pr => Except.ok ⟨fetchMetadata page vid today, pr.1, pr.2⟩

/-- C9 (confirmed): metadata retrieval is a total function that, on any page
    fetch failure, returns the degraded record — placeholder title "Video
    <id>", channel "Unknown", the zero duration string "0:00", zero view
    count, empty description — and a metadata failure never prevents
    transcript delivery: `extractVideo` still succeeds with the degraded
    metadata whenever the transcript fetch succeeds. -/
theorem C9_fetchMetadata_confirmed :
    (∀ err videoId today : String,
      fetchMetadata (Except.error err) videoId today =
        { title := "Video " ++ videoId,
          url := "https://www.youtube.com/watch?v=" ++ videoId,
          videoId := videoId,
          channel := "Unknown",
          uploadDate := today,
          duration := "0:00",
          viewCount := 0,
          description := "",
          channelUrl := "",
          thumbnailUrl := "https://i.ytimg.com/vi/" ++ videoId
            ++ "/maxresdefault.jpg" }) ∧
    (∀ (url err today plain : String) (ts : List TranscriptSegment)
       (vid : String),
      extractVideoId url = some vid →
      extractVideo url (Except.error err) (Except.ok (plain, ts)) today
        = Except.ok
            ⟨fetchMetadata (Except.error err) vid today, plain, ts⟩) := by
  refine ⟨fun err videoId today => rfl, ?_⟩
  intro url err today plain ts vid h
  unfold extractVideo
  rw [h]

/-- C9 witness: the transcript-delivery conjunct applied at a concrete URL
    whose id extraction is evaluated by `decide`. -/
theorem C9_fetchMetadata_witness :
    extractVideo "https://www.youtube.com/watch?v=dQw4w9WgXcQ"
        (Except.error "boom") (Except.ok ("hi", [])) "2026-10-12"
      = Except.ok
          ⟨fetchMetadata (Except.error "boom") "dQw4w9WgXcQ" "2026-10-12",
           "hi", []⟩ :=
  C9_fetchMetadata_confirmed.2 "https://www.youtube.com/watch?v=dQw4w9WgXcQ"
    "boom" "2026-10-12" "hi" [] "dQw4w9WgXcQ" (by decide)

/-! ## C6 — YouTubeService.parseTranscriptXml / decodeXMLEntities
    (src/services/youtube.ts 122-140 and 184-200)

    Pattern: /<text start="([^"]+)" dur="([^"]+)"[^>]*>([^<]*)<\/text>/g.
    Numbers are modelled as rationals; `parseFloat` is modelled on the plain
    decimal-numeral domain the caption attributes use (`digits` or
    `digits.digits`), with `none` standing for `NaN` on anything else. -/

/-- An XML-path segment; `none` in a time field models `NaN`. -/
structure XSegment where
  text : String
  offset : Option Int
  duration : Option Int
deriving DecidableEq

/-- `parseFloat` restricted to plain decimal numerals. -/
def parseDecimal (l : List Char) : Option ℚ :=
  let intPart := l.takeWhile Char.isDigit
  let rest := l.dropWhile Char.isDigit
  if intPart = [] then none
  else
    match rest with
    | [] => some (parsePosInt intPart : ℚ)
    | '.' :: frac =>
      if frac ≠ [] ∧ frac.all Char.isDigit then
        some ((parsePosInt intPart : ℚ)
          + (parsePosInt frac : ℚ) / (10 : ℚ) ^ frac.length)
      else none
    | _ => none

/-- JS `Math.round`: half-up, i.e. the floor of `q + 1/2`. -/
def jsRound (q : ℚ) : Int := ⌊q + (1 : ℚ) / 2⌋

/-- `YouTubeService.decodeXMLEntities`: sequential global replaces in the
    entity dictionary's insertion order. -/
def decodeXMLEntities (l : List Char) : List Char :=
  [(['&', 'a', 'm', 'p', ';'], ['&']),
   (['&', 'l', 't', ';'], ['<']),
   (['&', 'g', 't', ';'], ['>']),
   (['&', 'q', 'u', 'o', 't', ';'], ['"']),
   (['&', '#', '3', '9', ';'], ['\'']),
   (['&', 'a', 'p', 'o', 's', ';'], ['\''])].foldl
    (fun acc pr => jsReplaceAll pr.1 pr.2 acc) l

/-- `<text start="`. -/
def xmlTextPre : List Char :=
  ['<', 't', 'e', 'x', 't', ' ', 's', 't', 'a', 'r', 't', '=', '"']

/-- `" dur="`. -/
def xmlDurPre : List Char := ['"', ' ', 'd', 'u', 'r', '=', '"']

/-- `</text>`. -/
def xmlClose : List Char := ['<', '/', 't', 'e', 'x', 't', '>']

/-- `[^"]+` (greedy, stopping at the first quote). -/
def xmlAttrTake (l : List Char) : List Char := l.takeWhile fun c => !(c = '"')

def xmlAttrRest (l : List Char) : List Char := l.dropWhile fun c => !(c = '"')

/-- The whole element pattern at one position; on success, the segment made
    from it (entity-decoded trimmed text, seconds times 1000 rounded) and the
    remainder after `</text>`. -/
def xmlMatchAt (l : List Char) : Option (XSegment × List Char) :=
  match matchPre xmlTextPre l with
  | none => none
  | some r1 =>
    if xmlAttrTake r1 = [] then none
    else
      match matchPre xmlDurPre (xmlAttrRest r1) with
      | none => none
      | some r3 =>
        if xmlAttrTake r3 = [] then none
        else
          match xmlAttrRest r3 with
          | '"' :: r5 =>
            match r5.dropWhile (fun c => !(c = '>')) with
            | '>' :: r7 =>
              match matchPre xmlClose (r7.dropWhile fun c => !(c = '<')) with
              | some r9 =>
                some ({ text := String.mk (jsTrim (decodeXMLEntities
                          (r7.takeWhile fun c => !(c = '<')))),
                        offset := (parseDecimal (xmlAttrTake r1)).map
                          fun q => jsRound (q * 1000),
                        duration := (parseDecimal (xmlAttrTake r3)).map
                          fun q => jsRound (q * 1000) }, r9)
              | none => none
            | _ => none
          | _ => none

/-- The `while exec` loop: leftmost match, emit, continue after the match. -/
def xmlGo : Nat → List Char → List XSegment
  | 0, _ => []
  | _ + 1, [] => []
  | fuel + 1, c :: t =>
    match xmlMatchAt (c :: t) with
    | some (seg, rest) => seg :: xmlGo fuel rest
    | none => xmlGo fuel t

/-- `YouTubeService.parseTranscriptXml`. -/
def parseTranscriptXml (xml : String) : List XSegment :=
  xmlGo xml.data.length xml.data

theorem xmlGo_nil (fuel : Nat) : xmlGo fuel [] = [] := by
  cases fuel <;> rfl

theorem xmlGo_hit (l : List Char) (seg : XSegment)
    (h : xmlMatchAt l = some (seg, [])) (hne : l ≠ []) :
    xmlGo l.length l = [seg] := by
  cases l with
  | nil => exact absurd rfl hne
  | cons c t =>
    simp only [List.length_cons, xmlGo, h, xmlGo_nil]

theorem xmlMatchAt_element (s d content : List Char)
    (hs : s ≠ []) (hqs : ∀ c ∈ s, ¬ c = '"')
    (hd : d ≠ []) (hqd : ∀ c ∈ d, ¬ c = '"')
    (hc : ∀ c ∈ content, ¬ c = '<') :
    xmlMatchAt (xmlTextPre ++ (s ++ (xmlDurPre
        ++ (d ++ ('"' :: '>' :: (content ++ xmlClose))))))
      = some ({ text := String.mk (jsTrim (decodeXMLEntities content)),
                offset := (parseDecimal s).map fun q => jsRound (q * 1000),
                duration := (parseDecimal d).map fun q => jsRound (q * 1000) },
              []) := by
  have hsP : ∀ c ∈ s, (!(c = '"')) = true := by
    intro c hcs
    simp [hqs c hcs]
  have hdP : ∀ c ∈ d, (!(c = '"')) = true := by
    intro c hcd
    simp [hqd c hcd]
  have hcP : ∀ c ∈ content, (!(c = '<')) = true := by
    intro c hcc
    simp [hc c hcc]
  have hM1 : matchPre xmlTextPre (xmlTextPre ++ (s ++ (xmlDurPre
      ++ (d ++ ('"' :: '>' :: (content ++ xmlClose))))))
      = some (s ++ (xmlDurPre ++ (d ++ ('"' :: '>' :: (content ++ xmlClose))))) :=
    matchPre_self_append _ _
  have hA : xmlAttrTake (s ++ (xmlDurPre
      ++ (d ++ ('"' :: '>' :: (content ++ xmlClose))))) = s := by
    unfold xmlAttrTake
    rw [List.takeWhile_append_of_pos hsP]
    simp [xmlDurPre, List.takeWhile]
  have hR1 : xmlAttrRest (s ++ (xmlDurPre
      ++ (d ++ ('"' :: '>' :: (content ++ xmlClose)))))
      = xmlDurPre ++ (d ++ ('"' :: '>' :: (content ++ xmlClose))) := by
    unfold xmlAttrRest
    rw [List.dropWhile_append_of_pos hsP]
    simp [xmlDurPre, List.dropWhile]
  have hM2 : matchPre xmlDurPre (xmlDurPre
      ++ (d ++ ('"' :: '>' :: (content ++ xmlClose))))
      = some (d ++ ('"' :: '>' :: (content ++ xmlClose))) :=
    matchPre_self_append _ _
  have hB : xmlAttrTake (d ++ ('"' :: '>' :: (content ++ xmlClose))) = d := by
    unfold xmlAttrTake
    rw [List.takeWhile_append_of_pos hdP]
    simp [List.takeWhile]
  have hR3 : xmlAttrRest (d ++ ('"' :: '>' :: (content ++ xmlClose)))
      = '"' :: ('>' :: (content ++ xmlClose)) := by
    unfold xmlAttrRest
    rw [List.dropWhile_append_of_pos hdP]
    simp [List.dropWhile]
  have hD5 : ('>' :: (content ++ xmlClose)).dropWhile (fun c => !(c = '>'))
      = '>' :: (content ++ xmlClose) := by
    simp [List.dropWhile]
  have hT7 : (content ++ xmlClose).takeWhile (fun c => !(c = '<')) = content := by
    rw [List.takeWhile_append_of_pos hcP]
    simp [xmlClose, List.takeWhile]
  have hD7 : (content ++ xmlClose).dropWhile (fun c => !(c = '<')) = xmlClose := by
    rw [List.dropWhile_append_of_pos hcP]
    simp [xmlClose, List.dropWhile]
  have hM3 : matchPre xmlClose xmlClose = some [] := by
    have := matchPre_self_append xmlClose []
    simpa using this
  unfold xmlMatchAt
  rw [hM1]
  simp only [hA, hR1, hM2, hB, hR3, hD5, hT7, hD7, hM3, if_neg hs, if_neg hd]

/-- One full element anywhere the scan starts on it: the universal shape of
    `parseTranscriptXml` on a single element. -/
theorem parseTranscriptXml_element (s d content : List Char) (qs qd : ℚ)
    (hps : parseDecimal s = some qs) (hpd : parseDecimal d = some qd)
    (hs : s ≠ []) (hqs : ∀ c ∈ s, ¬ c = '"')
    (hd : d ≠ []) (hqd : ∀ c ∈ d, ¬ c = '"')
    (hc : ∀ c ∈ content, ¬ c = '<') :
    parseTranscriptXml (String.mk (xmlTextPre ++ (s ++ (xmlDurPre
        ++ (d ++ ('"' :: '>' :: (content ++ xmlClose)))))))
      = [{ text := String.mk (jsTrim (decodeXMLEntities content)),
           offset := some (jsRound (qs * 1000)),
           duration := some (jsRound (qd * 1000)) }] := by
  unfold parseTranscriptXml
  have hm := xmlMatchAt_element s d content hs hqs hd hqd hc
  rw [show (String.mk (xmlTextPre ++ (s ++ (xmlDurPre
      ++ (d ++ ('"' :: '>' :: (content ++ xmlClose))))))).data
      = xmlTextPre ++ (s ++ (xmlDurPre
        ++ (d ++ ('"' :: '>' :: (content ++ xmlClose))))) from rfl]
  rw [xmlGo_hit _ _ (by rw [hm, hps, hpd]) (by simp [xmlTextPre])]
  rfl

/-- C6 (confirmed): each full `<text start dur>content</text>` element (with
    nonempty quote-free attribute values in plain decimal form and a
    markup-free body) yields one segment whose times are the attribute values
    times 1000, rounded half-up to whole milliseconds, and whose text is
    entity-decoded; the claim's concrete instance evaluates to
    `{text := "A & B", offset := 1500, duration := 2250}`. -/
theorem C6_parseTranscriptXml_confirmed :
    (∀ (s d content : List Char) (qs qd : ℚ),
      parseDecimal s = some qs → parseDecimal d = some qd →
      s ≠ [] → (∀ c ∈ s, ¬ c = '"') →
      d ≠ [] → (∀ c ∈ d, ¬ c = '"') →
      (∀ c ∈ content, ¬ c = '<') →
      parseTranscriptXml (String.mk (xmlTextPre ++ (s ++ (xmlDurPre
          ++ (d ++ ('"' :: '>' :: (content ++ xmlClose)))))))
        = [{ text := String.mk (jsTrim (decodeXMLEntities content)),
             offset := some (jsRound (qs * 1000)),
             duration := some (jsRound (qd * 1000)) }]) ∧
    parseTranscriptXml "<text start=\"1.5\" dur=\"2.25\">A &amp; B</text>"
      = [{ text := "A & B", offset := some 1500, duration := some 2250 }] := by
  refine ⟨fun s d content qs qd h1 h2 h3 h4 h5 h6 h7 =>
    parseTranscriptXml_element s d content qs qd h1 h2 h3 h4 h5 h6 h7, ?_⟩
  have hone : parsePosInt ['1'] = 1 := rfl
  have hfive : parsePosInt ['5'] = 5 := rfl
  have htwo : parsePosInt ['2'] = 2 := rfl
  have h25 : parsePosInt ['2', '5'] = 25 := rfl
  have h := parseTranscriptXml_element ['1', '.', '5'] ['2', '.', '2', '5']
    ['A', ' ', '&', 'a', 'm', 'p', ';', ' ', 'B']
    ((parsePosInt ['1'] : ℚ)
      + (parsePosInt ['5'] : ℚ) / (10 : ℚ) ^ (['5'] : List Char).length)
    ((parsePosInt ['2'] : ℚ)
      + (parsePosInt ['2', '5'] : ℚ)
          / (10 : ℚ) ^ ((['2', '5'] : List Char).length))
    rfl rfl (by decide) (by decide) (by decide) (by decide) (by decide)
  rw [show ("<text start=\"1.5\" dur=\"2.25\">A &amp; B</text>" : String)
      = String.mk (xmlTextPre ++ (['1', '.', '5'] ++ (xmlDurPre
        ++ (['2', '.', '2', '5'] ++ ('"' :: '>'
          :: (['A', ' ', '&', 'a', 'm', 'p', ';', ' ', 'B'] ++ xmlClose))))))
      from by decide]
  rw [h]
  have hr1 : jsRound (((parsePosInt ['1'] : ℚ)
      + (parsePosInt ['5'] : ℚ) / (10 : ℚ) ^ (['5'] : List Char).length)
        * 1000) = 1500 := by
    rw [hone, hfive, jsRound, Int.floor_eq_iff]
    norm_num
  have hr2 : jsRound (((parsePosInt ['2'] : ℚ)
      + (parsePosInt ['2', '5'] : ℚ)
          / (10 : ℚ) ^ ((['2', '5'] : List Char).length)) * 1000) = 2250 := by
    rw [htwo, h25, jsRound, Int.floor_eq_iff]
    norm_num
  rw [hr1, hr2]
  have htext : String.mk (jsTrim (decodeXMLEntities
      ['A', ' ', '&', 'a', 'm', 'p', ';', ' ', 'B'])) = "A & B" := by decide
  rw [htext]

/-- C6 witness: the element-shape conjunct applied at the claim's concrete
    attribute values and body, hypotheses discharged by `rfl`/`decide`. -/
theorem C6_parseTranscriptXml_witness :
    parseTranscriptXml (String.mk (xmlTextPre ++ (['1', '.', '5']
        ++ (xmlDurPre ++ (['2', '.', '2', '5']
          ++ ('"' :: '>' :: (['A', ' ', '&', 'a', 'm', 'p', ';', ' ', 'B']
            ++ xmlClose)))))))
      = [{ text := String.mk (jsTrim (decodeXMLEntities
             ['A', ' ', '&', 'a', 'm', 'p', ';', ' ', 'B'])),
           offset := some (jsRound (((parsePosInt ['1'] : ℚ)
             + (parsePosInt ['5'] : ℚ)
                 / (10 : ℚ) ^ (['5'] : List Char).length) * 1000)),
           duration := some (jsRound (((parsePosInt ['2'] : ℚ)
             + (parsePosInt ['2', '5'] : ℚ)
                 / (10 : ℚ) ^ ((['2', '5'] : List Char).length)) * 1000)) }] :=
  C6_parseTranscriptXml_confirmed.1 ['1', '.', '5'] ['2', '.', '2', '5']
    ['A', ' ', '&', 'a', 'm', 'p', ';', ' ', 'B'] _ _ rfl rfl (by decide)
    (by decide) (by decide) (by decide) (by decide)

/-! ## Template engine — TemplateService (src/services/extraction.ts 293-574)

    `TemplateData` is the flat record built by `buildTemplateData`; `entries`
    lists its fields in the object's insertion order, which is the order
    `Object.entries` yields and hence the order of the substitution loops. -/

structure TemplateData where
  title : String
  url : String
  channel : String
  upload_date : String
  duration : String
  view_count : String
  description : String
  channel_url : String
  thumbnail_url : String
  llm_summary : String
  llm_key_points : String
  generated_tags : String
  generated_tags_hashtags : String
  llm_questions : String
  transcript : String
  transcript_timestamped : String
  extraction_date : String
deriving DecidableEq

/-- `Object.entries(data)` in insertion order. -/
def entries (d : TemplateData) : List (String × String) :=
  [("title", d.title), ("url", d.url), ("channel", d.channel),
   ("upload_date", d.upload_date), ("duration", d.duration),
   ("view_count", d.view_count), ("description", d.description),
   ("channel_url", d.channel_url), ("thumbnail_url", d.thumbnail_url),
   ("llm_summary", d.llm_summary), ("llm_key_points", d.llm_key_points),
   ("generated_tags", d.generated_tags),
   ("generated_tags_hashtags", d.generated_tags_hashtags),
   ("llm_questions", d.llm_questions), ("transcript", d.transcript),
   ("transcript_timestamped", d.transcript_timestamped),
   ("extraction_date", d.extraction_date)]

/-- The placeholder pattern for one key (a brace is \x7b / \x7d). -/
def phPat (k : String) : List Char :=
  '{' :: '{' :: (k.data ++ ['}', '}'])

/-- Doubling every occurrence of one character. -/
def doubleChar (c0 : Char) : List Char → List Char
  | [] => []
  | c :: t => if c = c0 then c0 :: c0 :: doubleChar c0 t else c :: doubleChar c0 t

theorem doubleChar_mem (c0 : Char) :
    ∀ (l : List Char) (c : Char), c ∈ doubleChar c0 l → c = c0 ∨ c ∈ l
  | [], c, h => by simp [doubleChar] at h
  | d :: t, c, h => by
    by_cases hd : d = c0
    · subst hd
      simp only [doubleChar, if_pos rfl] at h
      rcases List.mem_cons.mp h with h' | h'
      · exact Or.inl h'
      · rcases List.mem_cons.mp h' with h'' | h''
        · exact Or.inl h''
        · rcases doubleChar_mem d t c h'' with h3 | h3
          · exact Or.inl h3
          · exact Or.inr (List.mem_cons_of_mem d h3)
    · simp only [doubleChar, if_neg hd] at h
      rcases List.mem_cons.mp h with h' | h'
      · exact Or.inr (h' ▸ List.mem_cons_self d t)
      · rcases doubleChar_mem c0 t c h' with h3 | h3
        · exact Or.inl h3
        · exact Or.inr (List.mem_cons_of_mem d h3)

theorem doubleChar_id (c0 : Char) :
    ∀ l : List Char, c0 ∉ l → doubleChar c0 l = l
  | [], _ => rfl
  | c :: t, h => by
    have hc : ¬ c = c0 := fun hh => h (hh ▸ List.mem_cons_self c t)
    simp only [doubleChar, if_neg hc]
    rw [doubleChar_id c0 t fun hm => h (List.mem_cons_of_mem c hm)]

theorem replDGo_double (c0 : Char) (rep : List Char)
    (hrep : ∀ m b a, applyDollar m b a rep = [c0, c0]) :
    ∀ (v : List Char) (fuel : Nat) (pre : List Char), v.length ≤ fuel →
      replDGo c0 [] rep fuel pre v = doubleChar c0 v := by
  intro v
  induction v with
  | nil => intro fuel pre _; cases fuel <;> rfl
  | cons c t ih =>
    intro fuel pre h
    have ht : t.length ≤ (c :: t).length := by simp
    cases fuel with
    | zero => simp at h
    | succ n =>
      have htn : t.length ≤ n := by
        simp only [List.length_cons] at h
        omega
      by_cases hc : c = c0
      · subst hc
        have hm : matchPre [c] (c :: t) = some t := by simp [matchPre]
        simp only [replDGo, hm, hrep]
        rw [ih n (pre ++ [c]) htn]
        simp [doubleChar]
      · have hm : matchPre [c0] (c :: t) = none :=
          matchPre_cons_ne c0 c [] t fun hh => hc hh.symm
        simp only [replDGo, hm]
        rw [ih n (pre ++ [c]) htn]
        simp [doubleChar, hc]

theorem jsReplaceAll_double (c0 : Char) (hne : c0 ≠ '$') (v : List Char) :
    jsReplaceAll [c0] [c0, c0] v = doubleChar c0 v :=
  replDGo_double c0 [c0, c0]
    (fun m b a => applyDollar_no_dollar m b a [c0, c0]
      (by
        intro hm
        rcases List.mem_cons.mp hm with h | h
        · exact hne h.symm
        · rcases List.mem_cons.mp h with h2 | h2
          · exact hne h2.symm
          · simp at h2))
    v v.length [] (le_refl _)

/-- `value.replace(/\$/g, '$$$$')`: the body-region pre-escaping. -/
def dollarEsc (v : List Char) : List Char :=
  jsReplaceAll ['$'] ['$', '$', '$', '$'] v

theorem dollarEsc_eq_double (v : List Char) : dollarEsc v = doubleChar '$' v :=
  replDGo_double '$' ['$', '$', '$', '$'] (fun _ _ _ => rfl) v v.length []
    (le_refl _)

theorem applyDollarGo_doubleChar_dollar (m b a : List Char) :
    ∀ v : List Char, applyDollarGo m b a false (doubleChar '$' v) = v
  | [] => rfl
  | c :: t => by
    by_cases hc : c = '$'
    · subst hc
      rw [show doubleChar '$' ('$' :: t) = '$' :: '$' :: doubleChar '$' t
          from by simp [doubleChar]]
      rw [show applyDollarGo m b a false ('$' :: '$' :: doubleChar '$' t)
            = '$' :: applyDollarGo m b a false (doubleChar '$' t) from rfl]
      rw [applyDollarGo_doubleChar_dollar m b a t]
    · rw [show doubleChar '$' (c :: t) = c :: doubleChar '$' t
          from by simp [doubleChar, hc]]
      rw [show applyDollarGo m b a false (c :: doubleChar '$' t)
            = c :: applyDollarGo m b a false (doubleChar '$' t) from by
          simp only [applyDollarGo, Bool.false_eq_true, if_false, if_neg hc]]
      rw [applyDollarGo_doubleChar_dollar m b a t]

/-- Inserting an escaped value literally: the dollar pre-escaping followed by
    the replacement-string interpretation is the identity. -/
theorem applyDollar_dollarEsc (m b a v : List Char) :
    applyDollar m b a (dollarEsc v) = v := by
  rw [dollarEsc_eq_double]
  exact applyDollarGo_doubleChar_dollar m b a v

/-- `TemplateService.escapeYAMLValue`. -/
def escapeYAMLValue (v : String) : String :=
  if v.data.contains '"' || v.data.contains '\'' || v.data.contains ':'
      || v.data.contains '#' || v.data.contains '\\' then
    String.mk ('\'' :: (jsReplaceAll ['\''] ['\'', '\'']
      (jsReplaceAll ['\\'] ['\\', '\\'] v.data) ++ ['\'']))
  else v

/-- Split off the part before the first occurrence of the pattern and return
    it with the part after the pattern. -/
def splitOnFirst (pat : List Char) : List Char → Option (List Char × List Char)
  | [] =>
    match matchPre pat [] with
    | some r => some ([], r)
    | none => none
  | c :: t =>
    match matchPre pat (c :: t) with
    | some r => some ([], r)
    | none =>
      match splitOnFirst pat t with
      | some pr => some (c :: pr.1, pr.2)
      | none => none

/-- `---\n`, the opening frontmatter delimiter. -/
def fmOpen : List Char := ['-', '-', '-', '\n']

/-- `\n---\n`, the closing frontmatter delimiter. -/
def fmSep : List Char := ['\n', '-', '-', '-', '\n']

/-- The split performed by /^---\n([\s\S]*?)\n---\n([\s\S]*)$/: the lazy
    first group ends at the FIRST `\n---\n`. -/
def fmSplit (l : List Char) : Option (List Char × List Char) :=
  match matchPre fmOpen l with
  | none => none
  | some r => splitOnFirst fmSep r

/-- One substitution loop over the record entries: the frontmatter region
    uses the escaped value as a raw replacement string, the body region the
    dollar-pre-escaped value. -/
def replaceAllEntries (l : List Char) (es : List (String × String))
    (escape : Bool) : List Char :=
  es.foldl
    (fun acc e =>
      jsReplaceAll (phPat e.1)
        (if escape then (escapeYAMLValue e.2).data else dollarEsc e.2.data)
        acc)
    l

/-- `TemplateService.replaceVariables`. -/
def replaceVariables (template : String) (d : TemplateData) : String :=
  match fmSplit template.data with
  | some pr =>
    String.mk (fmOpen ++ (replaceAllEntries pr.1 (entries d) true
      ++ (fmSep ++ replaceAllEntries pr.2 (entries d) false)))
  | none => String.mk (replaceAllEntries template.data (entries d) false)

/-- The built-in default template (`loadDefaultTemplate`). -/
def defaultTemplate : String :=
  "---\ntitle: \x7b\x7btitle\x7d\x7d\nurl: \x7b\x7burl\x7d\x7d\nchannel: \x7b\x7bchannel\x7d\x7d\ndate: \x7b\x7bupload_date\x7d\x7d\nduration: \x7b\x7bduration\x7d\x7d\n---\n\n# \x7b\x7btitle\x7d\x7d\n\n\x7b\x7bgenerated_tags_hashtags\x7d\x7d\n\n## Summary\n\x7b\x7bllm_summary\x7d\x7d\n\n---\n\n## Key Points\n\x7b\x7bllm_key_points\x7d\x7d\n\n---\n\n## Personal Notes\n\n---\n\n## Transcript\n\x7b\x7btranscript\x7d\x7d\n"

/-- A pass whose subject contains no opening brace changes nothing, whatever
    the remaining entries are. -/
theorem replaceAllEntries_no_brace :
    ∀ (es : List (String × String)) (l : List Char) (esc : Bool),
      '{' ∉ l → replaceAllEntries l es esc = l
  | [], l, esc, _ => rfl
  | e :: es, l, esc, h => by
    unfold replaceAllEntries
    rw [List.foldl_cons]
    rw [show jsReplaceAll (phPat e.1)
          (if esc then (escapeYAMLValue e.2).data else dollarEsc e.2.data) l = l
        from jsReplaceAll_no_occ _ _ l
          (hasOcc_false_of_head_notin '{' _ l h)]
    exact replaceAllEntries_no_brace es l esc h

/-! ## C10 — TemplateService.generateFilename
    (src/services/extraction.ts 523-532) -/

/-- The characters illegal in filenames: `[\\/:*?"<>|]`. -/
def badFileChar (c : Char) : Bool :=
  c = '\\' || c = '/' || c = ':' || c = '*' || c = '?' || c = '"' ||
  c = '<' || c = '>' || c = '|'

/-- `TemplateService.sanitizeFilename`. -/
def sanitizeFilename (name : String) : String :=
  String.mk ((name.data.map fun c => if badFileChar c then '-' else c).take 100)

/-- `data.url.split('v=')[1] || ''`: the part between the first and second
    occurrence of `v=` (to the end when there is no second occurrence, empty
    when there is no first). -/
def urlIdPart (url : String) : String :=
  match splitOnFirst ['v', '='] url.data with
  | none => ""
  | some pr =>
    match splitOnFirst ['v', '='] pr.2 with
    | none => String.mk pr.2
    | some pr2 => String.mk pr2.1

def tokDate : List Char := '{' :: ['d', 'a', 't', 'e', '}']

def tokTitle : List Char := '{' :: ['t', 'i', 't', 'l', 'e', '}']

def tokChannel : List Char := '{' :: ['c', 'h', 'a', 'n', 'n', 'e', 'l', '}']

def tokId : List Char := '{' :: ['i', 'd', '}']

/-- `TemplateService.generateFilename`: four first-occurrence replaces in
    source order, then the `.md` extension. -/
def generateFilename (namingPattern : String) (d : TemplateData) : String :=
  String.mk (jsReplaceFirst tokId (urlIdPart d.url).data
    (jsReplaceFirst tokChannel (sanitizeFilename d.channel).data
      (jsReplaceFirst tokTitle (sanitizeFilename d.title).data
        (jsReplaceFirst tokDate d.extraction_date.data namingPattern.data)))
    ++ ['.', 'm', 'd'])

theorem hasOcc_false_append3 (p0 : Char) (prest A mid B : List Char)
    (hA : p0 ∉ A)
    (hmid : ∀ i, i < mid.length → matchPre (p0 :: prest) (mid.drop i ++ B) = none)
    (hB : hasOcc (p0 :: prest) B = false) :
    hasOcc (p0 :: prest) (A ++ (mid ++ B)) = false := by
  unfold hasOcc at hB ⊢
  rw [scan_append_skip _ A (mid ++ B)
        (fun i hi => matchPre_drop_none_of_notin p0 prest A (mid ++ B) hA i hi),
      scan_append_skip _ mid B hmid]
  exact hB

theorem matchPre_drop_none_tok (p0 : Char) (prest : List Char) (m0 : Char)
    (mt B : List Char) (h0 : mismatchWithin (p0 :: prest) (m0 :: mt) = true)
    (ht : p0 ∉ mt) :
    ∀ i, i < (m0 :: mt).length →
      matchPre (p0 :: prest) ((m0 :: mt).drop i ++ B) = none := by
  intro i hi
  cases i with
  | zero => simpa using matchPre_none_of_mismatch (p0 :: prest) (m0 :: mt) B h0
  | succ j =>
    rw [List.drop_succ_cons]
    exact matchPre_drop_none_of_notin p0 prest mt B ht j (by simpa using hi)

/-- One first-occurrence replace on a pattern holding the token twice:
    replace the first, keep the second verbatim. -/
theorem jsReplaceFirst_doubled (prest v x y z : List Char)
    (hx : '{' ∉ x) (hv : '$' ∉ v) :
    jsReplaceFirst ('{' :: prest) v
        (x ++ (('{' :: prest) ++ (y ++ (('{' :: prest) ++ z))))
      = x ++ (v ++ (y ++ (('{' :: prest) ++ z))) := by
  rw [jsReplaceFirst_single '{' prest v x (y ++ (('{' :: prest) ++ z))
        (matchPre_drop_none_of_notin '{' prest x _ hx)]
  rw [applyDollar_no_dollar _ _ _ v hv]

/-- A different token's replace pass leaves a doubled-token pattern alone. -/
theorem jsReplaceFirst_skip_doubled (prest prest' rep x y z : List Char)
    (hx : '{' ∉ x) (hy : '{' ∉ y) (hz : '{' ∉ z)
    (hmm : mismatchWithin ('{' :: prest) ('{' :: prest') = true)
    (ht' : '{' ∉ prest') :
    jsReplaceFirst ('{' :: prest) rep
        (x ++ (('{' :: prest') ++ (y ++ (('{' :: prest') ++ z))))
      = x ++ (('{' :: prest') ++ (y ++ (('{' :: prest') ++ z))) := by
  refine jsReplaceFirst_no_occ _ _ _ ?_
  refine hasOcc_false_append3 '{' prest x ('{' :: prest')
    (y ++ (('{' :: prest') ++ z)) hx
    (matchPre_drop_none_tok '{' prest '{' prest' _ hmm ht') ?_
  refine hasOcc_false_append3 '{' prest y ('{' :: prest') z hy
    (matchPre_drop_none_tok '{' prest '{' prest' _ hmm ht') ?_
  exact hasOcc_false_of_head_notin '{' prest z hz

/-- A different token's replace pass leaves a single remaining token alone. -/
theorem jsReplaceFirst_skip_one (prest prest' rep A z : List Char)
    (hA : '{' ∉ A) (hz : '{' ∉ z)
    (hmm : mismatchWithin ('{' :: prest) ('{' :: prest') = true)
    (ht' : '{' ∉ prest') :
    jsReplaceFirst ('{' :: prest) rep (A ++ (('{' :: prest') ++ z))
      = A ++ (('{' :: prest') ++ z) := by
  refine jsReplaceFirst_no_occ _ _ _ ?_
  refine hasOcc_false_append3 '{' prest A ('{' :: prest') z hA
    (matchPre_drop_none_tok '{' prest '{' prest' _ hmm ht') ?_
  exact hasOcc_false_of_head_notin '{' prest z hz

theorem notin_append3 {c : Char} {x v y : List Char}
    (hx : c ∉ x) (hv : c ∉ v) (hy : c ∉ y) : c ∉ x ++ (v ++ y) := by
  intro hmem
  rcases List.mem_append.mp hmem with h | h
  · exact hx h
  · rcases List.mem_append.mp h with h2 | h2
    · exact hv h2
    · exact hy h2

/-- C10 (confirmed): for naming patterns containing the same token twice
    (with brace-free surroundings and brace/dollar-free substituted values),
    `generateFilename` replaces only the first occurrence of each of
    `{date}`, `{title}`, `{channel}`, `{id}` and keeps the later occurrence
    verbatim; and every result ends in the appended ".md" extension. -/
theorem C10_generateFilename_confirmed :
    (∀ (d : TemplateData) (x y z : List Char),
      '{' ∉ x → '{' ∉ y → '{' ∉ z →
      '{' ∉ d.extraction_date.data → '$' ∉ d.extraction_date.data →
      generateFilename (String.mk (x ++ (tokDate ++ (y ++ (tokDate ++ z))))) d
        = String.mk (x ++ (d.extraction_date.data
            ++ (y ++ (tokDate ++ (z ++ ['.', 'm', 'd'])))))) ∧
    (∀ (d : TemplateData) (x y z : List Char),
      '{' ∉ x → '{' ∉ y → '{' ∉ z →
      '{' ∉ (sanitizeFilename d.title).data →
      '$' ∉ (sanitizeFilename d.title).data →
      generateFilename (String.mk (x ++ (tokTitle ++ (y ++ (tokTitle ++ z))))) d
        = String.mk (x ++ ((sanitizeFilename d.title).data
            ++ (y ++ (tokTitle ++ (z ++ ['.', 'm', 'd'])))))) ∧
    (∀ (d : TemplateData) (x y z : List Char),
      '{' ∉ x → '{' ∉ y → '{' ∉ z →
      '{' ∉ (sanitizeFilename d.channel).data →
      '$' ∉ (sanitizeFilename d.channel).data →
      generateFilename
          (String.mk (x ++ (tokChannel ++ (y ++ (tokChannel ++ z))))) d
        = String.mk (x ++ ((sanitizeFilename d.channel).data
            ++ (y ++ (tokChannel ++ (z ++ ['.', 'm', 'd'])))))) ∧
    (∀ (d : TemplateData) (x y z : List Char),
      '{' ∉ x → '{' ∉ y → '{' ∉ z →
      '{' ∉ (urlIdPart d.url).data → '$' ∉ (urlIdPart d.url).data →
      generateFilename (String.mk (x ++ (tokId ++ (y ++ (tokId ++ z))))) d
        = String.mk (x ++ ((urlIdPart d.url).data
            ++ (y ++ (tokId ++ (z ++ ['.', 'm', 'd'])))))) ∧
    (∀ (p : String) (d : TemplateData),
      ∃ rest : List Char, generateFilename p d
        = String.mk (rest ++ ['.', 'm', 'd'])) := by
  refine ⟨?_, ?_, ?_, ?_, fun p d => ⟨_, rfl⟩⟩
  · intro d x y z hx hy hz hvb hvd
    unfold generateFilename
    refine congrArg String.mk ?_
    rw [show (String.mk (x ++ (tokDate ++ (y ++ (tokDate ++ z))))).data
          = x ++ (tokDate ++ (y ++ (tokDate ++ z))) from rfl]
    rw [show jsReplaceFirst tokDate d.extraction_date.data
          (x ++ (tokDate ++ (y ++ (tokDate ++ z))))
          = x ++ (d.extraction_date.data ++ (y ++ (tokDate ++ z))) from
        jsReplaceFirst_doubled ['d', 'a', 't', 'e', '}'] _ x y z hx hvd]
    rw [show jsReplaceFirst tokTitle (sanitizeFilename d.title).data
          (x ++ (d.extraction_date.data ++ (y ++ (tokDate ++ z))))
          = x ++ (d.extraction_date.data ++ (y ++ (tokDate ++ z))) from by
        rw [show x ++ (d.extraction_date.data ++ (y ++ (tokDate ++ z)))
              = (x ++ (d.extraction_date.data ++ y)) ++ (tokDate ++ z) from by
            simp [List.append_assoc]]
        exact jsReplaceFirst_skip_one ['t', 'i', 't', 'l', 'e', '}']
          ['d', 'a', 't', 'e', '}'] _ _ z (notin_append3 hx hvb hy) hz
          (by decide) (by decide)]
    rw [show jsReplaceFirst tokChannel (sanitizeFilename d.channel).data
          (x ++ (d.extraction_date.data ++ (y ++ (tokDate ++ z))))
          = x ++ (d.extraction_date.data ++ (y ++ (tokDate ++ z))) from by
        rw [show x ++ (d.extraction_date.data ++ (y ++ (tokDate ++ z)))
              = (x ++ (d.extraction_date.data ++ y)) ++ (tokDate ++ z) from by
            simp [List.append_assoc]]
        exact jsReplaceFirst_skip_one ['c', 'h', 'a', 'n', 'n', 'e', 'l', '}']
          ['d', 'a', 't', 'e', '}'] _ _ z (notin_append3 hx hvb hy) hz
          (by decide) (by decide)]
    rw [show jsReplaceFirst tokId (urlIdPart d.url).data
          (x ++ (d.extraction_date.data ++ (y ++ (tokDate ++ z))))
          = x ++ (d.extraction_date.data ++ (y ++ (tokDate ++ z))) from by
        rw [show x ++ (d.extraction_date.data ++ (y ++ (tokDate ++ z)))
              = (x ++ (d.extraction_date.data ++ y)) ++ (tokDate ++ z) from by
            simp [List.append_assoc]]
        exact jsReplaceFirst_skip_one ['i', 'd', '}'] ['d', 'a', 't', 'e', '}']
          _ _ z (notin_append3 hx hvb hy) hz (by decide) (by decide)]
    simp [List.append_assoc]
  · intro d x y z hx hy hz hvb hvd
    unfold generateFilename
    refine congrArg String.mk ?_
    rw [show (String.mk (x ++ (tokTitle ++ (y ++ (tokTitle ++ z))))).data
          = x ++ (tokTitle ++ (y ++ (tokTitle ++ z))) from rfl]
    rw [show jsReplaceFirst tokDate d.extraction_date.data
          (x ++ (tokTitle ++ (y ++ (tokTitle ++ z))))
          = x ++ (tokTitle ++ (y ++ (tokTitle ++ z))) from
        jsReplaceFirst_skip_doubled ['d', 'a', 't', 'e', '}']
          ['t', 'i', 't', 'l', 'e', '}'] _ x y z hx hy hz (by decide)
          (by decide)]
    rw [show jsReplaceFirst tokTitle (sanitizeFilename d.title).data
          (x ++ (tokTitle ++ (y ++ (tokTitle ++ z))))
          = x ++ ((sanitizeFilename d.title).data ++ (y ++ (tokTitle ++ z)))
        from jsReplaceFirst_doubled ['t', 'i', 't', 'l', 'e', '}'] _ x y z hx
          hvd]
    rw [show jsReplaceFirst tokChannel (sanitizeFilename d.channel).data
          (x ++ ((sanitizeFilename d.title).data ++ (y ++ (tokTitle ++ z))))
          = x ++ ((sanitizeFilename d.title).data ++ (y ++ (tokTitle ++ z)))
        from by
        rw [show x ++ ((sanitizeFilename d.title).data ++ (y ++ (tokTitle ++ z)))
              = (x ++ ((sanitizeFilename d.title).data ++ y))
                  ++ (tokTitle ++ z) from by
            simp [List.append_assoc]]
        exact jsReplaceFirst_skip_one ['c', 'h', 'a', 'n', 'n', 'e', 'l', '}']
          ['t', 'i', 't', 'l', 'e', '}'] _ _ z (notin_append3 hx hvb hy) hz
          (by decide) (by decide)]
    rw [show jsReplaceFirst tokId (urlIdPart d.url).data
          (x ++ ((sanitizeFilename d.title).data ++ (y ++ (tokTitle ++ z))))
          = x ++ ((sanitizeFilename d.title).data ++ (y ++ (tokTitle ++ z)))
        from by
        rw [show x ++ ((sanitizeFilename d.title).data ++ (y ++ (tokTitle ++ z)))
              = (x ++ ((sanitizeFilename d.title).data ++ y))
                  ++ (tokTitle ++ z) from by
            simp [List.append_assoc]]
        exact jsReplaceFirst_skip_one ['i', 'd', '}']
          ['t', 'i', 't', 'l', 'e', '}'] _ _ z (notin_append3 hx hvb hy) hz
          (by decide) (by decide)]
    simp [List.append_assoc]
  · intro d x y z hx hy hz hvb hvd
    unfold generateFilename
    refine congrArg String.mk ?_
    rw [show (String.mk (x ++ (tokChannel ++ (y ++ (tokChannel ++ z))))).data
          = x ++ (tokChannel ++ (y ++ (tokChannel ++ z))) from rfl]
    rw [show jsReplaceFirst tokDate d.extraction_date.data
          (x ++ (tokChannel ++ (y ++ (tokChannel ++ z))))
          = x ++ (tokChannel ++ (y ++ (tokChannel ++ z))) from
        jsReplaceFirst_skip_doubled ['d', 'a', 't', 'e', '}']
          ['c', 'h', 'a', 'n', 'n', 'e', 'l', '}'] _ x y z hx hy hz (by decide)
          (by decide)]
    rw [show jsReplaceFirst tokTitle (sanitizeFilename d.title).data
          (x ++ (tokChannel ++ (y ++ (tokChannel ++ z))))
          = x ++ (tokChannel ++ (y ++ (tokChannel ++ z))) from
        jsReplaceFirst_skip_doubled ['t', 'i', 't', 'l', 'e', '}']
          ['c', 'h', 'a', 'n', 'n', 'e', 'l', '}'] _ x y z hx hy hz (by decide)
          (by decide)]
    rw [show jsReplaceFirst tokChannel (sanitizeFilename d.channel).data
          (x ++ (tokChannel ++ (y ++ (tokChannel ++ z))))
          = x ++ ((sanitizeFilename d.channel).data ++ (y ++ (tokChannel ++ z)))
        from jsReplaceFirst_doubled ['c', 'h', 'a', 'n', 'n', 'e', 'l', '}'] _
          x y z hx hvd]
    rw [show jsReplaceFirst tokId (urlIdPart d.url).data
          (x ++ ((sanitizeFilename d.channel).data ++ (y ++ (tokChannel ++ z))))
          = x ++ ((sanitizeFilename d.channel).data ++ (y ++ (tokChannel ++ z)))
        from by
        rw [show x ++ ((sanitizeFilename d.channel).data
              ++ (y ++ (tokChannel ++ z)))
              = (x ++ ((sanitizeFilename d.channel).data ++ y))
                  ++ (tokChannel ++ z) from by
            simp [List.append_assoc]]
        exact jsReplaceFirst_skip_one ['i', 'd', '}']
          ['c', 'h', 'a', 'n', 'n', 'e', 'l', '}'] _ _ z
          (notin_append3 hx hvb hy) hz (by decide) (by decide)]
    simp [List.append_assoc]
  · intro d x y z hx hy hz hvb hvd
    unfold generateFilename
    refine congrArg String.mk ?_
    rw [show (String.mk (x ++ (tokId ++ (y ++ (tokId ++ z))))).data
          = x ++ (tokId ++ (y ++ (tokId ++ z))) from rfl]
    rw [show jsReplaceFirst tokDate d.extraction_date.data
          (x ++ (tokId ++ (y ++ (tokId ++ z))))
          = x ++ (tokId ++ (y ++ (tokId ++ z))) from
        jsReplaceFirst_skip_doubled ['d', 'a', 't', 'e', '}'] ['i', 'd', '}']
          _ x y z hx hy hz (by decide) (by decide)]
    rw [show jsReplaceFirst tokTitle (sanitizeFilename d.title).data
          (x ++ (tokId ++ (y ++ (tokId ++ z))))
          = x ++ (tokId ++ (y ++ (tokId ++ z))) from
        jsReplaceFirst_skip_doubled ['t', 'i', 't', 'l', 'e', '}']
          ['i', 'd', '}'] _ x y z hx hy hz (by decide) (by decide)]
    rw [show jsReplaceFirst tokChannel (sanitizeFilename d.channel).data
          (x ++ (tokId ++ (y ++ (tokId ++ z))))
          = x ++ (tokId ++ (y ++ (tokId ++ z))) from
        jsReplaceFirst_skip_doubled ['c', 'h', 'a', 'n', 'n', 'e', 'l', '}']
          ['i', 'd', '}'] _ x y z hx hy hz (by decide) (by decide)]
    rw [show jsReplaceFirst tokId (urlIdPart d.url).data
          (x ++ (tokId ++ (y ++ (tokId ++ z))))
          = x ++ ((urlIdPart d.url).data ++ (y ++ (tokId ++ z))) from
        jsReplaceFirst_doubled ['i', 'd', '}'] _ x y z hx hvd]
    simp [List.append_assoc]

/-- C10 witness: the `{date}` conjunct at a concrete record and pattern. -/
theorem C10_generateFilename_witness :
    generateFilename
        (String.mk (['A'] ++ (tokDate ++ (['B'] ++ (tokDate ++ ['C'])))))
        ⟨"t", "u", "c", "", "", "", "", "", "", "", "", "", "", "", "", "",
         "2026-10-12"⟩
      = String.mk (['A'] ++ ("2026-10-12".data
          ++ (['B'] ++ (tokDate ++ (['C'] ++ ['.', 'm', 'd']))))) :=
  C10_generateFilename_confirmed.1
    ⟨"t", "u", "c", "", "", "", "", "", "", "", "", "", "", "", "", "",
     "2026-10-12"⟩
    ['A'] ['B'] ['C'] (by decide) (by decide) (by decide) (by decide)
    (by decide)

/-! ## C3 — body-region substitution (TemplateService.replaceVariables,
    src/services/extraction.ts 425-461) -/

theorem replaceAllEntries_cons_body (l : List Char) (k v : String)
    (es : List (String × String)) :
    replaceAllEntries l ((k, v) :: es) false
      = replaceAllEntries (jsReplaceAll (phPat k) (dollarEsc v.data) l) es
          false := rfl

theorem replaceAllEntries_cons_fm (l : List Char) (k v : String)
    (es : List (String × String)) :
    replaceAllEntries l ((k, v) :: es) true
      = replaceAllEntries (jsReplaceAll (phPat k) (escapeYAMLValue v).data l)
          es true := rfl

/-- The 16 entries after `title`, in order. -/
def entriesTail (d : TemplateData) : List (String × String) := (entries d).tail

theorem jsReplaceAll_self (p0 : Char) (prest rep : List Char) :
    jsReplaceAll (p0 :: prest) rep (p0 :: prest)
      = applyDollar (p0 :: prest) [] [] rep := by
  have h := jsReplaceAll_single p0 prest rep [] []
    (by intro i hi; simp at hi) (by rfl)
  simpa using h

/-- Modelled from the spec: "the result equals simultaneous substitution of
    all placeholders" — a single left-to-right pass that replaces each
    placeholder by its record value and never rescans substituted text. -/
def simGo (es : List (String × String)) : Nat → List Char → List Char
  | 0, l => l
  | _ + 1, [] => []
  | fuel + 1, c :: t =>
    match es.findSome?
        (fun e => (matchPre (phPat e.1) (c :: t)).map fun rest => (e.2, rest))
      with
    | some pr => pr.1.data ++ simGo es fuel pr.2
    | none => c :: simGo es fuel t

/-- Simultaneous substitution of the whole record into a template. -/
def simSubst (template : String) (d : TemplateData) : String :=
  String.mk (simGo (entries d) template.data.length template.data)

/-- The record of the cascading counterexample, with a symbolic transcript:
    the title value is itself the text `{{transcript}}`. -/
def cascadeRec (tr : String) : TemplateData :=
  ⟨"\x7b\x7btranscript\x7d\x7d", "", "", "", "", "", "", "", "", "", "", "",
   "", "", tr, "", ""⟩

/-- C3 (amended): body-region substitution inserts each value literally with
    respect to the `$` pattern-substitution metacharacters (first conjunct:
    any brace-free value, dollars included, comes through unchanged), but it
    does NOT protect against placeholder reinterpretation: substitution is
    sequential over the record keys in insertion order, so a title value
    consisting of the text `{{transcript}}` is replaced again by the
    transcript value when that later key is processed (second conjunct). -/
theorem C3_replaceVariables_amended :
    (∀ d : TemplateData, '{' ∉ d.title.data →
      replaceVariables "\x7b\x7btitle\x7d\x7d" d = d.title) ∧
    (∀ tr : String, '{' ∉ tr.data →
      replaceVariables "\x7b\x7btitle\x7d\x7d" (cascadeRec tr) = tr) := by
  constructor
  · intro d hb
    rw [show replaceVariables "\x7b\x7btitle\x7d\x7d" d
          = String.mk (replaceAllEntries ("\x7b\x7btitle\x7d\x7d" : String).data
              (entries d) false) from rfl]
    rw [show ("\x7b\x7btitle\x7d\x7d" : String).data = phPat "title" from rfl]
    rw [show entries d = ("title", d.title) :: entriesTail d from rfl]
    rw [replaceAllEntries_cons_body]
    rw [show phPat "title" = '{' :: ('{' :: ("title".data ++ ['}', '}']))
        from rfl]
    rw [jsReplaceAll_self]
    rw [applyDollar_dollarEsc]
    rw [replaceAllEntries_no_brace (entriesTail d) d.title.data false hb]
  · intro tr hb
    rw [show replaceVariables "\x7b\x7btitle\x7d\x7d" (cascadeRec tr)
          = String.mk (replaceAllEntries ("\x7b\x7btitle\x7d\x7d" : String).data
              (entries (cascadeRec tr)) false) from rfl]
    rw [show entries (cascadeRec tr)
          = ("title", "\x7b\x7btranscript\x7d\x7d") :: ("url", "")
            :: ("channel", "") :: ("upload_date", "") :: ("duration", "")
            :: ("view_count", "") :: ("description", "") :: ("channel_url", "")
            :: ("thumbnail_url", "") :: ("llm_summary", "")
            :: ("llm_key_points", "") :: ("generated_tags", "")
            :: ("generated_tags_hashtags", "") :: ("llm_questions", "")
            :: ("transcript", tr) :: ("transcript_timestamped", "")
            :: ("extraction_date", "") :: [] from rfl]
    rw [replaceAllEntries_cons_body]
    rw [show jsReplaceAll (phPat "title")
          (dollarEsc ("\x7b\x7btranscript\x7d\x7d" : String).data)
          ("\x7b\x7btitle\x7d\x7d" : String).data
          = ("\x7b\x7btranscript\x7d\x7d" : String).data from by decide]
    rw [replaceAllEntries_cons_body]
    rw [show jsReplaceAll (phPat "url") (dollarEsc ("" : String).data)
          ("\x7b\x7btranscript\x7d\x7d" : String).data
          = ("\x7b\x7btranscript\x7d\x7d" : String).data from by decide]
    rw [replaceAllEntries_cons_body]
    rw [show jsReplaceAll (phPat "channel") (dollarEsc ("" : String).data)
          ("\x7b\x7btranscript\x7d\x7d" : String).data
          = ("\x7b\x7btranscript\x7d\x7d" : String).data from by decide]
    rw [replaceAllEntries_cons_body]
    rw [show jsReplaceAll (phPat "upload_date") (dollarEsc ("" : String).data)
          ("\x7b\x7btranscript\x7d\x7d" : String).data
          = ("\x7b\x7btranscript\x7d\x7d" : String).data from by decide]
    rw [replaceAllEntries_cons_body]
    rw [show jsReplaceAll (phPat "duration") (dollarEsc ("" : String).data)
          ("\x7b\x7btranscript\x7d\x7d" : String).data
          = ("\x7b\x7btranscript\x7d\x7d" : String).data from by decide]
    rw [replaceAllEntries_cons_body]
    rw [show jsReplaceAll (phPat "view_count") (dollarEsc ("" : String).data)
          ("\x7b\x7btranscript\x7d\x7d" : String).data
          = ("\x7b\x7btranscript\x7d\x7d" : String).data from by decide]
    rw [replaceAllEntries_cons_body]
    rw [show jsReplaceAll (phPat "description") (dollarEsc ("" : String).data)
          ("\x7b\x7btranscript\x7d\x7d" : String).data
          = ("\x7b\x7btranscript\x7d\x7d" : String).data from by decide]
    rw [replaceAllEntries_cons_body]
    rw [show jsReplaceAll (phPat "channel_url") (dollarEsc ("" : String).data)
          ("\x7b\x7btranscript\x7d\x7d" : String).data
          = ("\x7b\x7btranscript\x7d\x7d" : String).data from by decide]
    rw [replaceAllEntries_cons_body]
    rw [show jsReplaceAll (phPat "thumbnail_url") (dollarEsc ("" : String).data)
          ("\x7b\x7btranscript\x7d\x7d" : String).data
          = ("\x7b\x7btranscript\x7d\x7d" : String).data from by decide]
    rw [replaceAllEntries_cons_body]
    rw [show jsReplaceAll (phPat "llm_summary") (dollarEsc ("" : String).data)
          ("\x7b\x7btranscript\x7d\x7d" : String).data
          = ("\x7b\x7btranscript\x7d\x7d" : String).data from by decide]
    rw [replaceAllEntries_cons_body]
    rw [show jsReplaceAll (phPat "llm_key_points") (dollarEsc ("" : String).data)
          ("\x7b\x7btranscript\x7d\x7d" : String).data
          = ("\x7b\x7btranscript\x7d\x7d" : String).data from by decide]
    rw [replaceAllEntries_cons_body]
    rw [show jsReplaceAll (phPat "generated_tags")
          (dollarEsc ("" : String).data)
          ("\x7b\x7btranscript\x7d\x7d" : String).data
          = ("\x7b\x7btranscript\x7d\x7d" : String).data from by decide]
    rw [replaceAllEntries_cons_body]
    rw [show jsReplaceAll (phPat "generated_tags_hashtags")
          (dollarEsc ("" : String).data)
          ("\x7b\x7btranscript\x7d\x7d" : String).data
          = ("\x7b\x7btranscript\x7d\x7d" : String).data from by decide]
    rw [replaceAllEntries_cons_body]
    rw [show jsReplaceAll (phPat "llm_questions")
          (dollarEsc ("" : String).data)
          ("\x7b\x7btranscript\x7d\x7d" : String).data
          = ("\x7b\x7btranscript\x7d\x7d" : String).data from by decide]
    rw [replaceAllEntries_cons_body]
    rw [show ("\x7b\x7btranscript\x7d\x7d" : String).data
          = phPat "transcript" from rfl]
    rw [show phPat "transcript"
          = '{' :: ('{' :: ("transcript".data ++ ['}', '}'])) from rfl]
    rw [jsReplaceAll_self]
    rw [applyDollar_dollarEsc]
    rw [replaceAllEntries_no_brace _ tr.data false hb]

/-- C3 counterexample: with the title value being the literal text
    `{{transcript}}` and the transcript "T", the body render of the template
    `{{title}}` is "T" — the substituted value was reinterpreted as a
    placeholder — whereas simultaneous substitution yields the verbatim
    `{{transcript}}` text. -/
theorem C3_replaceVariables_counterexample :
    replaceVariables "\x7b\x7btitle\x7d\x7d" (cascadeRec "T") = "T" ∧
    simSubst "\x7b\x7btitle\x7d\x7d" (cascadeRec "T")
      = "\x7b\x7btranscript\x7d\x7d" ∧
    ("T" : String) ≠ "\x7b\x7btranscript\x7d\x7d" := by
  exact ⟨by decide, by decide, by decide⟩

/-- C3 witness: a title value full of `$` metacharacters comes through the
    body substitution unchanged. -/
theorem C3_replaceVariables_witness :
    replaceVariables "\x7b\x7btitle\x7d\x7d"
        ⟨"a$&b$c$$", "", "", "", "", "", "", "", "", "", "", "", "", "", "",
         "", ""⟩
      = "a$&b$c$$" :=
  C3_replaceVariables_amended.1
    ⟨"a$&b$c$$", "", "", "", "", "", "", "", "", "", "", "", "", "", "", "",
     ""⟩ (by decide)

/-! ## C2 — frontmatter escaping (TemplateService.escapeYAMLValue,
    src/services/extraction.ts 412-420, and replaceVariables)

    The claim is a refinement claim ("the rendered frontmatter parses as
    valid structured data"); the definitions from `yamlIndicator` to
    `fmFieldsOf` follow the spec's words, modelling a YAML block mapping of
    single-line scalars (plain or single-quoted with quote doubling), the
    structured format Obsidian frontmatter uses. -/

/-- YAML indicator characters that may not start a plain scalar. -/
def yamlIndicator (c : Char) : Bool :=
  c = '[' || c = ']' || c = '{' || c = '}' || c = '#' || c = '&' || c = '*' ||
  c = '!' || c = '|' || c = '>' || c = '\'' || c = '"' || c = '%' || c = '@' ||
  c = ',' || c = Char.ofNat 96

/-- Single-quoted scalar body: `''` is a literal quote, a lone `'` closes the
    scalar and must end the line; an unterminated scalar is invalid. -/
def parseSQGo : Bool → List Char → Option (List Char)
  | false, [] => none
  | true, [] => some []
  | false, c :: t =>
    if c = '\'' then parseSQGo true t
    else (parseSQGo false t).map (c :: ·)
  | true, c :: t =>
    if c = '\'' then (parseSQGo false t).map ('\'' :: ·)
    else none

/-- Whether the two characters occur adjacently. -/
def hasSubPair (a b : Char) : List Char → Bool
  | [] => false
  | [_] => false
  | c :: d :: t => (c = a && d = b) || hasSubPair a b (d :: t)

/-- One scalar value on a mapping line: single-quoted, or plain (not opening
    with an indicator, no `: ` or ` #`, no newline), whose value is trimmed. -/
def parseScalarSpec (l : List Char) : Option (List Char) :=
  match l with
  | [] => some []
  | '\'' :: t => parseSQGo false t
  | c :: t =>
    if yamlIndicator c then none
    else if (c = '-' ∨ c = '?' ∨ c = ':') ∧ (t.head?.getD ' ' = ' ') then none
    else if hasSubPair ':' ' ' (c :: t) || hasSubPair ' ' '#' (c :: t)
        || (c :: t).contains '\n' then none
    else some (jsTrim (c :: t))

def splitLinesGo : List Char → List Char → List (List Char)
  | acc, [] => [acc.reverse]
  | acc, c :: t =>
    if c = '\n' then acc.reverse :: splitLinesGo [] t
    else splitLinesGo (c :: acc) t

/-- Split a block into its lines. -/
def splitLines (l : List Char) : List (List Char) := splitLinesGo [] l

/-- One mapping line `key: value` (or `key:` with an empty value). -/
def parseLine (l : List Char) : Option (List Char × List Char) :=
  match l.dropWhile (fun c => !(c = ':')) with
  | ':' :: rest =>
    if (l.takeWhile fun c => !(c = ':')) = [] then none
    else
      match rest with
      | [] => some (l.takeWhile fun c => !(c = ':'), [])
      | ' ' :: v =>
        (parseScalarSpec v).map fun w => (l.takeWhile fun c => !(c = ':'), w)
      | _ => none
  | _ => none

/-- Parse a whole frontmatter block: every line must be a mapping line. -/
def parseFMBlock (l : List Char) : Option (List (List Char × List Char)) :=
  (splitLines l).mapM parseLine

/-- The parsed key/value pairs of a rendered document's frontmatter. -/
def fmFieldsOf (doc : String) : Option (List (List Char × List Char)) :=
  (fmSplit doc.data).bind fun pr => parseFMBlock pr.1

theorem parseSQGo_double :
    ∀ w : List Char, parseSQGo false (doubleChar '\'' w ++ ['\'']) = some w
  | [] => rfl
  | c :: t => by
    by_cases hc : c = '\''
    · subst hc
      rw [show doubleChar '\'' ('\'' :: t) = '\'' :: '\'' :: doubleChar '\'' t
          from by simp [doubleChar]]
      rw [show parseSQGo false (('\'' :: '\'' :: doubleChar '\'' t) ++ ['\''])
            = (parseSQGo false (doubleChar '\'' t ++ ['\''])).map ('\'' :: ·)
          from rfl]
      rw [parseSQGo_double t]
      rfl
    · rw [show doubleChar '\'' (c :: t) = c :: doubleChar '\'' t
          from by simp [doubleChar, hc]]
      rw [show parseSQGo false ((c :: doubleChar '\'' t) ++ ['\''])
            = (parseSQGo false (doubleChar '\'' t ++ ['\''])).map (c :: ·)
          from by
          rw [List.cons_append]
          simp only [parseSQGo, if_neg hc]]
      rw [parseSQGo_double t]
      rfl

theorem parseScalarSpec_quote (t : List Char) :
    parseScalarSpec ('\'' :: t) = parseSQGo false t := rfl

theorem escapeYAML_special (v : String)
    (hsp : (v.data.contains '"' || v.data.contains '\'' || v.data.contains ':'
      || v.data.contains '#' || v.data.contains '\\') = true) :
    escapeYAMLValue v
      = String.mk ('\'' ::
          (doubleChar '\'' (doubleChar '\\' v.data) ++ ['\''])) := by
  unfold escapeYAMLValue
  rw [if_pos hsp]
  rw [jsReplaceAll_double '\\' (by decide) v.data]
  rw [jsReplaceAll_double '\'' (by decide) (doubleChar '\\' v.data)]

theorem escapeYAML_notin (c : Char) (v : String) (hc1 : ¬ c = '\'')
    (hc2 : ¬ c = '\\') (h : c ∉ v.data) : c ∉ (escapeYAMLValue v).data := by
  unfold escapeYAMLValue
  split
  · rw [jsReplaceAll_double '\\' (by decide), jsReplaceAll_double '\'' (by decide)]
    intro hmem
    have hmem' : c ∈ '\'' :: (doubleChar '\'' (doubleChar '\\' v.data) ++ ['\'']) :=
      hmem
    rcases List.mem_cons.mp hmem' with h1 | h1
    · exact hc1 h1
    · rcases List.mem_append.mp h1 with h2 | h2
      · rcases doubleChar_mem '\'' _ c h2 with h3 | h3
        · exact hc1 h3
        · rcases doubleChar_mem '\\' _ c h3 with h4 | h4
          · exact hc2 h4
          · exact h h4
      · rcases List.mem_cons.mp h2 with h3 | h3
        · exact hc1 h3
        · simp at h3
  · exact h

/-- A record whose only nonempty field is the title. -/
def titleRec (v : String) : TemplateData :=
  ⟨v, "", "", "", "", "", "", "", "", "", "", "", "", "", "", "", ""⟩

/-- A minimal template with a one-line frontmatter and the body `B`. -/
def miniTemplate : String := "---\ntitle: \x7b\x7btitle\x7d\x7d\n---\nB"

/-- The record of the claim's round-trip scenario: a title with an embedded
    colon and quote, plus benign values for the other frontmatter fields. -/
def recC2 : TemplateData :=
  ⟨"How to: Say \"Hello\"", "https://www.youtube.com/watch?v=abc", "Chan",
   "2026-01-02", "10m 5s", "", "", "", "", "", "", "", "", "", "", "", ""⟩

set_option maxRecDepth 100000 in
/-- C2 (amended): frontmatter substitution escapes quote, colon, hash and
    backslash by single-quoting with quote doubling. A value containing one
    of those characters always renders as a single-quoted scalar that parses,
    and it re-parses to the original value with backslashes doubled — an
    exact round-trip whenever the value contains no backslash (first
    conjunct). The substitution itself produces exactly `title: <escaped>`
    in the frontmatter region for brace- and dollar-free values (second
    conjunct), and the default-template round-trip with a title containing
    an embedded colon and quote re-parses to exactly the original title
    (third conjunct). Values with newlines are NOT protected: they can make
    the rendered frontmatter unparseable (see the counterexample), so the
    claim's guarantee does not hold for every record value. -/
theorem C2_escapeYAML_amended :
    (∀ v : String,
      (v.data.contains '"' || v.data.contains '\'' || v.data.contains ':'
        || v.data.contains '#' || v.data.contains '\\') = true →
      parseScalarSpec (escapeYAMLValue v).data
        = some (doubleChar '\\' v.data) ∧
      ('\\' ∉ v.data →
        parseScalarSpec (escapeYAMLValue v).data = some v.data)) ∧
    (∀ v : String, '{' ∉ v.data → '$' ∉ v.data →
      replaceVariables miniTemplate (titleRec v)
        = String.mk (fmOpen ++ (("title: ".data ++ (escapeYAMLValue v).data)
            ++ (fmSep ++ ['B'])))) ∧
    fmFieldsOf (replaceVariables defaultTemplate recC2)
      = some [("title".data, "How to: Say \"Hello\"".data),
              ("url".data, "https://www.youtube.com/watch?v=abc".data),
              ("channel".data, "Chan".data),
              ("date".data, "2026-01-02".data),
              ("duration".data, "10m 5s".data)] := by
  refine ⟨?_, ?_, by decide⟩
  · intro v hsp
    have hparse : parseScalarSpec (escapeYAMLValue v).data
        = some (doubleChar '\\' v.data) := by
      rw [escapeYAML_special v hsp]
      rw [show (String.mk ('\'' ::
            (doubleChar '\'' (doubleChar '\\' v.data) ++ ['\'']))).data
            = '\'' :: (doubleChar '\'' (doubleChar '\\' v.data) ++ ['\''])
          from rfl]
      rw [parseScalarSpec_quote, parseSQGo_double]
    refine ⟨hparse, fun hbs => ?_⟩
    rw [hparse, doubleChar_id '\\' v.data hbs]
  · intro v hbrace hdollar
    have hesc_brace : '{' ∉ (escapeYAMLValue v).data :=
      escapeYAML_notin '{' v (by decide) (by decide) hbrace
    have hesc_dollar : '$' ∉ (escapeYAMLValue v).data :=
      escapeYAML_notin '$' v (by decide) (by decide) hdollar
    rw [show replaceVariables miniTemplate (titleRec v)
          = String.mk (fmOpen
              ++ (replaceAllEntries ("title: \x7b\x7btitle\x7d\x7d" : String).data
                    (entries (titleRec v)) true
                ++ (fmSep ++ replaceAllEntries ['B'] (entries (titleRec v))
                      false))) from rfl]
    rw [replaceAllEntries_no_brace (entries (titleRec v)) ['B'] false
          (by decide)]
    rw [show entries (titleRec v) = ("title", v) :: entriesTail (titleRec v)
        from rfl]
    rw [replaceAllEntries_cons_fm]
    rw [show ("title: \x7b\x7btitle\x7d\x7d" : String).data
          = "title: ".data
              ++ (('{' :: ('{' :: ("title".data ++ ['}', '}']))) ++ [])
        from by decide]
    rw [show phPat "title" = '{' :: ('{' :: ("title".data ++ ['}', '}']))
        from rfl]
    rw [jsReplaceAll_single '{' ('{' :: ("title".data ++ ['}', '}']))
          (escapeYAMLValue v).data "title: ".data []
          (matchPre_drop_none_of_notin '{' _ "title: ".data _ (by decide))
          (by rfl)]
    rw [applyDollar_no_dollar _ _ _ _ hesc_dollar]
    rw [replaceAllEntries_no_brace (entriesTail (titleRec v))
          ("title: ".data ++ ((escapeYAMLValue v).data ++ [])) true
          (by
            intro hmem
            rcases List.mem_append.mp hmem with h1 | h1
            · exact absurd h1 (by decide)
            · rcases List.mem_append.mp h1 with h2 | h2
              · exact hesc_brace h2
              · simp at h2)]
    simp

set_option maxRecDepth 100000 in
/-- C2 counterexample: a title containing a newline is not escaped (it has
    none of the quote/colon/hash/backslash trigger characters), the rendered
    document still has a frontmatter block, and that block fails to parse as
    structured data — `x` and `evil` end up on separate lines and the `evil`
    line is not a key/value line. -/
theorem C2_escapeYAML_counterexample :
    (fmSplit (replaceVariables defaultTemplate (titleRec "x\nevil")).data).isSome
      = true ∧
    fmFieldsOf (replaceVariables defaultTemplate (titleRec "x\nevil")) = none := by
  exact ⟨by decide, by decide⟩

/-- C2 witness: the scalar-level conjunct at the claim's colon-and-quote
    title, and the substitution conjunct at the same value. -/
theorem C2_escapeYAML_witness :
    parseScalarSpec (escapeYAMLValue "How to: Say \"Hello\"").data
      = some ("How to: Say \"Hello\"" : String).data ∧
    replaceVariables miniTemplate (titleRec "How to: Say \"Hello\"")
      = String.mk (fmOpen ++ (("title: ".data
          ++ (escapeYAMLValue "How to: Say \"Hello\"").data)
            ++ (fmSep ++ ['B']))) :=
  ⟨(C2_escapeYAML_amended.1 "How to: Say \"Hello\"" (by decide)).2 (by decide),
   C2_escapeYAML_amended.2.1 "How to: Say \"Hello\"" (by decide) (by decide)⟩
